import Mathlib

/-!
Verification of the eterm session and wire-protocol layer.

The definitions below are a shallow embedding of the Rust sources of the
repository (src/eterm/src/lib.rs, server.rs, client.rs, net_shape.rs).
Bytes are modelled as natural numbers, byte streams as lists; the
non-blocking TCP stream is modelled by the list of bytes buffered so far
(a peek reads without consuming, a destructive read drops a chunk from the
front).  External crates (egui, bincode, zstd) are not part of the
repository; where a claim depends on them the corresponding definition is
modelled from the specification and marked as such in its doc comment.
-/

namespace Eterm

/-- The 5-byte ASCII magic b"eterm", from lib.rs: PROTOCOL_HEADER. -/
def MAGIC : List Nat := [101, 116, 101, 114, 109]

/-- lib.rs: PROTOCOL_HEADER = b"eterm", major, minor, patch = [.., 0, 0, 1]. -/
def PROTOCOL_HEADER : List Nat := [101, 116, 101, 114, 109, 0, 0, 1]

/-- u32::from_le_bytes for four byte values. -/
def u32FromLe (b0 b1 b2 b3 : Nat) : Nat :=
  b0 + 256 * b1 + 65536 * b2 + 16777216 * b3

/-- u32::to_le_bytes: the four little-endian bytes of a value below 2^32. -/
def u32ToLe (n : Nat) : List Nat :=
  [n % 256, n / 256 % 256, n / 65536 % 256, n / 16777216 % 256]

/-- The declared payload length of a buffered frame: the little-endian u32 at
byte offsets 8..11 of the buffer (lib.rs, try_receive_packet). -/
def declared_len (buf : List Nat) : Nat :=
  u32FromLe (buf.getD 8 0) (buf.getD 9 0) (buf.getD 10 0) (buf.getD 11 0)

/-- Result of one call to TcpEndpoint::try_receive_packet.  notYet models
Ok(None); packet models Ok(Some(payload)) together with the bytes left in the
stream after the destructive read; the three error constructors model the
three anyhow::bail! sites ("not eterm", version mismatch carrying both
version triplets, oversized packet carrying the declared length). -/
inductive RecvResult where
  | notYet
  | packet (payload rest : List Nat)
  | notEterm
  | versionMismatch (thisSide otherSide : Nat × Nat × Nat)
  | oversized (length : Nat)
deriving DecidableEq

/-- Shallow embedding of TcpEndpoint::try_receive_packet (lib.rs lines
182-248).  The buffer holds the bytes currently readable from the stream.
Peeking the 12-byte header yields fewer than 12 bytes when fewer are
buffered, giving Ok(None); then the 5-byte magic is checked, then the full
8-byte header (magic plus version triplet), then the declared length is
checked against the 32,000,000-byte ceiling; finally the whole frame is
peeked and, only if completely present, consumed. -/
def try_receive_packet (buf : List Nat) : RecvResult :=
  if buf.length < 12 then .notYet
  else if buf.take 5 ≠ MAGIC then .notEterm
  else if buf.take 8 ≠ PROTOCOL_HEADER then
    .versionMismatch (0, 0, 1) (buf.getD 5 0, buf.getD 6 0, buf.getD 7 0)
  else if 32000000 < declared_len buf then .oversized (declared_len buf)
  else if buf.length < 12 + declared_len buf then .notYet
  else .packet ((buf.drop 12).take (declared_len buf)) (buf.drop (12 + declared_len buf))

/-- The bytes still buffered after a call to try_receive_packet: only a
successful read consumes anything (the slip past the header peek, the
version gate, the oversize gate and a half-arrived frame all leave the
stream position untouched). -/
def buffer_after (buf : List Nat) : List Nat :=
  match try_receive_packet buf with
  | .packet _ rest => rest
  | _ => buf

/-- TcpEndpoint::send_packet: header, little-endian length, payload. -/
def encodePacket (p : List Nat) : List Nat :=
  PROTOCOL_HEADER ++ u32ToLe p.length ++ p

/-- Concatenation of a list of encoded frames. -/
def framesConcat : List (List Nat) → List Nat
  | [] => []
  | p :: ps => encodePacket p ++ framesConcat ps

/-- Concatenation of delivered byte chunks. -/
def concatChunks : List (List Nat) → List Nat
  | [] => []
  | c :: cs => c ++ concatChunks cs

/-- Repeatedly call try_receive_packet on the buffer, collecting payloads,
until it stops yielding packets; fuel bounds the recursion (the buffer
length always suffices, since every packet consumes at least 12 bytes). -/
def drainGo : Nat → List Nat → List (List Nat) × List Nat
  | 0, buf => ([], buf)
  | fuel + 1, buf =>
    match try_receive_packet buf with
    | .packet p rest =>
      let r := drainGo fuel rest
      (p :: r.1, r.2)
    | _ => ([], buf)

/-- Drain all complete packets currently buffered. -/
def drainPackets (buf : List Nat) : List (List Nat) × List Nat :=
  drainGo buf.length buf

/-- Feed chunks to the transport one at a time; after each chunk arrives,
drain every complete packet.  Returns all payloads received, in order, and
the bytes still buffered at the end. -/
def feedGo : List (List Nat) → List Nat → List (List Nat) → List (List Nat) × List Nat
  | acc, buf, [] => (acc, buf)
  | acc, buf, c :: cs =>
    let d := drainPackets (buf ++ c)
    feedGo (acc ++ d.1) d.2 cs

/-- Deliver a list of byte chunks to a fresh transport. -/
def feedChunks (chunks : List (List Nat)) : List (List Nat) × List Nat :=
  feedGo [] [] chunks

lemma u32_roundtrip (n : Nat) (h : n < 4294967296) :
    u32FromLe (n % 256) (n / 256 % 256) (n / 65536 % 256) (n / 16777216 % 256) = n := by
  unfold u32FromLe
  omega

lemma getD_take {α : Type} (d : α) :
    ∀ (l : List α) (m i : Nat), i < m → (l.take m).getD i d = l.getD i d := by
  intro l
  induction l with
  | nil => intro m i _; simp
  | cons a t ih =>
    intro m i him
    cases m with
    | zero => omega
    | succ m' =>
      cases i with
      | zero => simp
      | succ i' =>
        simp only [List.take_succ_cons, List.getD_cons_succ]
        exact ih m' i' (by omega)

lemma take_of_append_le {α : Type} :
    ∀ (l₁ l₂ : List α) (n : Nat), n ≤ l₁.length → (l₁ ++ l₂).take n = l₁.take n := by
  intro l₁
  induction l₁ with
  | nil => intro l₂ n h; simp at h; simp [h]
  | cons a t ih =>
    intro l₂ n h
    cases n with
    | zero => simp
    | succ n' =>
      simp only [List.cons_append, List.take_succ_cons]
      rw [ih l₂ n' (by simpa using h)]

lemma encodePacket_length (p : List Nat) : (encodePacket p).length = 12 + p.length := by
  simp only [encodePacket, PROTOCOL_HEADER, u32ToLe, List.length_append, List.length_cons,
    List.length_nil]

lemma declared_len_encode (p : List Nat) (rest : List Nat) (h : p.length < 4294967296) :
    declared_len (encodePacket p ++ rest) = p.length := by
  simp only [encodePacket, u32ToLe, PROTOCOL_HEADER, List.cons_append, List.nil_append,
    declared_len, List.getD_cons_succ, List.getD_cons_zero]
  exact u32_roundtrip p.length h

lemma take5_encode (p rest : List Nat) : (encodePacket p ++ rest).take 5 = MAGIC := by
  simp [encodePacket, u32ToLe, PROTOCOL_HEADER, MAGIC]

lemma take8_encode (p rest : List Nat) : (encodePacket p ++ rest).take 8 = PROTOCOL_HEADER := by
  simp [encodePacket, u32ToLe, PROTOCOL_HEADER]

/-- A complete well-formed frame at the front of the buffer is decoded to its
payload, consuming exactly the frame. -/
lemma receive_complete (p rest : List Nat) (hp : p.length ≤ 32000000) :
    try_receive_packet (encodePacket p ++ rest) = .packet p rest := by
  have hlen : (encodePacket p ++ rest).length = 12 + p.length + rest.length := by
    rw [List.length_append, encodePacket_length]
  have hdl : declared_len (encodePacket p ++ rest) = p.length :=
    declared_len_encode p rest (by omega)
  have htk5 := take5_encode p rest
  have htk8 := take8_encode p rest
  unfold try_receive_packet
  rw [hdl, htk5, htk8, if_neg (by omega), if_neg (not_not_intro rfl),
    if_neg (not_not_intro rfl), if_neg (by omega), if_neg (by omega)]
  have hdrop : (encodePacket p ++ rest).drop 12 = p ++ rest := by
    have heq : encodePacket p ++ rest = (PROTOCOL_HEADER ++ u32ToLe p.length) ++ (p ++ rest) := by
      simp [encodePacket]
    rw [heq]
    have h12 : (PROTOCOL_HEADER ++ u32ToLe p.length).length = 12 := by
      simp [PROTOCOL_HEADER, u32ToLe]
    rw [List.drop_left' h12]
  have hdrop2 : (encodePacket p ++ rest).drop (12 + p.length) = rest := by
    have heq : encodePacket p ++ rest = (PROTOCOL_HEADER ++ u32ToLe p.length ++ p) ++ rest := by
      simp [encodePacket]
    rw [heq]
    have h12p : (PROTOCOL_HEADER ++ u32ToLe p.length ++ p).length = 12 + p.length := by
      simp only [PROTOCOL_HEADER, u32ToLe, List.length_append, List.length_cons, List.length_nil]
    rw [List.drop_left' h12p]
  rw [hdrop, hdrop2]
  have htkp : (p ++ rest).take p.length = p := List.take_left p rest
  rw [htkp]

/-- Fewer than twelve buffered bytes: nothing is returned or consumed. -/
lemma receive_short (buf : List Nat) (h : buf.length < 12) :
    try_receive_packet buf = .notYet := by
  unfold try_receive_packet
  rw [if_pos h]

/-- A strict front fragment of a well-formed frame is never decoded and never
consumed: try_receive_packet answers Ok(None). -/
lemma receive_partial (p buf : List Nat) (hp : p.length ≤ 32000000)
    (hpre : ∃ t, buf ++ t = encodePacket p)
    (hlt : buf.length < 12 + p.length) :
    try_receive_packet buf = .notYet := by
  by_cases hshort : buf.length < 12
  · exact receive_short buf hshort
  · obtain ⟨t, ht⟩ := hpre
    have hbuf : buf = (encodePacket p).take buf.length := by
      have htake : (buf ++ t).take buf.length = buf := List.take_left buf t
      rw [← ht, htake]
    have htk5 : buf.take 5 = MAGIC := by
      rw [hbuf, List.take_take]
      have hmin : min 5 buf.length = 5 := by omega
      rw [hmin]
      have hnil : encodePacket p = encodePacket p ++ [] := by simp
      rw [hnil, take5_encode]
    have htk8 : buf.take 8 = PROTOCOL_HEADER := by
      rw [hbuf, List.take_take]
      have hmin : min 8 buf.length = 8 := by omega
      rw [hmin]
      have hnil : encodePacket p = encodePacket p ++ [] := by simp
      rw [hnil, take8_encode]
    have hdl : declared_len buf = p.length := by
      have hfull : declared_len (encodePacket p ++ ([] : List Nat)) = p.length :=
        declared_len_encode p [] (by omega)
      simp only [List.append_nil] at hfull
      unfold declared_len at hfull ⊢
      rw [hbuf]
      rw [getD_take 0 (encodePacket p) buf.length 8 (by omega),
        getD_take 0 (encodePacket p) buf.length 9 (by omega),
        getD_take 0 (encodePacket p) buf.length 10 (by omega),
        getD_take 0 (encodePacket p) buf.length 11 (by omega)]
      exact hfull
    unfold try_receive_packet
    rw [hdl, htk5, htk8, if_neg (by omega), if_neg (not_not_intro rfl),
      if_neg (not_not_intro rfl), if_neg (by omega), if_pos (by omega)]

/-- CLAIM C3.  With at least a full 12-byte header buffered: a header whose
first five bytes are the magic but whose version triplet differs in any
component fails with the version-mismatch error carrying both triplets,
whatever the declared length bytes and whatever follows; a header whose
five magic bytes differ fails with the not-this-protocol error instead. -/
theorem claim_C3 (v1 v2 v3 : Nat) (len4 rest : List Nat) (hlen : len4.length = 4) :
    ((v1, v2, v3) ≠ ((0 : Nat), (0 : Nat), (1 : Nat)) →
      try_receive_packet (MAGIC ++ [v1, v2, v3] ++ len4 ++ rest)
        = .versionMismatch (0, 0, 1) (v1, v2, v3))
    ∧ (∀ m5 : List Nat, m5.length = 5 → m5 ≠ MAGIC →
      try_receive_packet (m5 ++ [v1, v2, v3] ++ len4 ++ rest) = .notEterm) := by
  constructor
  · intro hv
    have hn12 : ¬ (MAGIC ++ [v1, v2, v3] ++ len4 ++ rest).length < 12 := by
      simp only [MAGIC, List.length_append, List.length_cons, List.length_nil, hlen]
      omega
    have htk5 : (MAGIC ++ [v1, v2, v3] ++ len4 ++ rest).take 5 = MAGIC := by
      simp [MAGIC]
    have htk8 : (MAGIC ++ [v1, v2, v3] ++ len4 ++ rest).take 8 = MAGIC ++ [v1, v2, v3] := by
      simp [MAGIC]
    have hne8 : MAGIC ++ [v1, v2, v3] ≠ PROTOCOL_HEADER := by
      intro hcontra
      apply hv
      simp only [MAGIC, PROTOCOL_HEADER, List.cons_append, List.nil_append,
        List.cons.injEq] at hcontra
      obtain ⟨-, -, -, -, -, h1, h2, h3, -⟩ := hcontra
      simp [h1, h2, h3]
    have hg5 : (MAGIC ++ [v1, v2, v3] ++ len4 ++ rest).getD 5 0 = v1 := by
      simp [MAGIC]
    have hg6 : (MAGIC ++ [v1, v2, v3] ++ len4 ++ rest).getD 6 0 = v2 := by
      simp [MAGIC]
    have hg7 : (MAGIC ++ [v1, v2, v3] ++ len4 ++ rest).getD 7 0 = v3 := by
      simp [MAGIC]
    unfold try_receive_packet
    rw [htk5, htk8, hg5, hg6, hg7, if_neg hn12, if_neg (not_not_intro rfl), if_pos hne8]
  · intro m5 hm5 hne
    have hn12 : ¬ (m5 ++ [v1, v2, v3] ++ len4 ++ rest).length < 12 := by
      simp only [List.length_append, List.length_cons, List.length_nil, hm5, hlen]
      omega
    have htk5 : (m5 ++ [v1, v2, v3] ++ len4 ++ rest).take 5 = m5 := by
      rw [List.append_assoc, List.append_assoc, take_of_append_le m5 _ 5 (by omega)]
      rw [← hm5, List.take_length]
    unfold try_receive_packet
    rw [htk5, if_neg hn12, if_pos hne]

/-- Witness for C3 at a concrete mismatching version and a concrete bad
magic. -/
theorem claim_C3_witness :
    try_receive_packet (MAGIC ++ [0, 0, 2] ++ [7, 0, 0, 0] ++ [1, 2, 3])
      = .versionMismatch (0, 0, 1) (0, 0, 2)
    ∧ try_receive_packet ([9, 9, 9, 9, 9] ++ [0, 0, 1] ++ [7, 0, 0, 0] ++ [1, 2, 3])
      = .notEterm := by
  have h := claim_C3 0 0 2 [7, 0, 0, 0] [1, 2, 3] (by decide)
  refine ⟨h.1 (by decide), ?_⟩
  have h' := claim_C3 0 0 1 [7, 0, 0, 0] [1, 2, 3] (by decide)
  exact h'.2 [9, 9, 9, 9, 9] (by decide) (by decide)

/-- CLAIM C4.  For a buffered header with correct magic and version and any
declared little-endian length: the oversized-packet error occurs exactly
when the declared length exceeds 32,000,000; when it does, the error names
the declared length and consumes nothing; a length of at most 32,000,000
(hence exactly 32,000,000) is not rejected, and the packet is returned as
soon as its payload bytes have arrived. -/
theorem claim_C4 (len : Nat) (rest : List Nat) (h32 : len < 4294967296) :
    ((∃ n, try_receive_packet (PROTOCOL_HEADER ++ u32ToLe len ++ rest) = .oversized n)
      ↔ 32000000 < len)
    ∧ (32000000 < len →
        try_receive_packet (PROTOCOL_HEADER ++ u32ToLe len ++ rest) = .oversized len
        ∧ buffer_after (PROTOCOL_HEADER ++ u32ToLe len ++ rest)
            = PROTOCOL_HEADER ++ u32ToLe len ++ rest)
    ∧ (len ≤ 32000000 → len ≤ rest.length →
        try_receive_packet (PROTOCOL_HEADER ++ u32ToLe len ++ rest)
          = .packet (rest.take len) (rest.drop len)) := by
  have hover : 32000000 < len →
      try_receive_packet (PROTOCOL_HEADER ++ u32ToLe len ++ rest) = .oversized len := by
    intro hbig
    have hn12 : ¬ (PROTOCOL_HEADER ++ u32ToLe len ++ rest).length < 12 := by
      simp only [PROTOCOL_HEADER, u32ToLe, List.length_append, List.length_cons,
        List.length_nil]
      omega
    have hdl : declared_len (PROTOCOL_HEADER ++ u32ToLe len ++ rest) = len := by
      simp only [PROTOCOL_HEADER, u32ToLe, List.cons_append, List.nil_append,
        declared_len, List.getD_cons_succ, List.getD_cons_zero]
      exact u32_roundtrip len h32
    have htk5 : (PROTOCOL_HEADER ++ u32ToLe len ++ rest).take 5 = MAGIC := by
      simp [PROTOCOL_HEADER, u32ToLe, MAGIC]
    have htk8 : (PROTOCOL_HEADER ++ u32ToLe len ++ rest).take 8 = PROTOCOL_HEADER := by
      simp [PROTOCOL_HEADER, u32ToLe]
    unfold try_receive_packet
    rw [hdl, htk5, htk8, if_neg hn12, if_neg (not_not_intro rfl),
      if_neg (not_not_intro rfl), if_pos hbig]
  have hok : len ≤ 32000000 → len ≤ rest.length →
      try_receive_packet (PROTOCOL_HEADER ++ u32ToLe len ++ rest)
        = .packet (rest.take len) (rest.drop len) := by
    intro hsmall hrest
    have heq : PROTOCOL_HEADER ++ u32ToLe len ++ rest
        = encodePacket (rest.take len) ++ rest.drop len := by
      have htl : (rest.take len).length = len := by
        rw [List.length_take]
        omega
      simp only [encodePacket, htl]
      rw [List.append_assoc, List.append_assoc, List.take_append_drop]
      simp [List.append_assoc]
    rw [heq]
    exact receive_complete (rest.take len) (rest.drop len)
      (by rw [List.length_take]; omega)
  refine ⟨⟨?_, ?_⟩, fun hbig => ⟨hover hbig, ?_⟩, hok⟩
  · rintro ⟨n, hn⟩
    by_contra hle
    push_neg at hle
    by_cases hr : len ≤ rest.length
    · rw [hok hle hr] at hn
      exact absurd hn (by simp)
    · push_neg at hr
      have hny : try_receive_packet (PROTOCOL_HEADER ++ u32ToLe len ++ rest) = .notYet := by
        apply receive_partial (rest ++ List.replicate (len - rest.length) 0)
        · simp only [List.length_append, List.length_replicate]
          omega
        · refine ⟨List.replicate (len - rest.length) 0, ?_⟩
          simp only [encodePacket, List.length_append, List.length_replicate]
          have hsum : rest.length + (len - rest.length) = len := by omega
          rw [hsum, List.append_assoc, List.append_assoc]
        · simp only [PROTOCOL_HEADER, u32ToLe, List.length_append, List.length_cons,
            List.length_nil, List.length_replicate]
          omega
      rw [hny] at hn
      exact absurd hn (by simp)
  · intro hbig
    exact ⟨len, hover hbig⟩
  · unfold buffer_after
    rw [hover hbig]

lemma framesConcat_append (l r : List (List Nat)) :
    framesConcat (l ++ r) = framesConcat l ++ framesConcat r := by
  induction l with
  | nil => simp [framesConcat]
  | cons p ps ih => simp [framesConcat, ih, List.append_assoc]

/-- Draining a buffer that consists of complete well-formed frames followed by
an undecodable remainder yields exactly those frames' payloads, in order, and
stops at the remainder. -/
lemma drain_exact : ∀ (ps : List (List Nat)) (b : List Nat) (fuel : Nat),
    (∀ p ∈ ps, p.length ≤ 32000000) → try_receive_packet b = .notYet →
    (framesConcat ps ++ b).length ≤ fuel →
    drainGo fuel (framesConcat ps ++ b) = (ps, b) := by
  intro ps
  induction ps with
  | nil =>
    intro b fuel _ hb _
    cases fuel with
    | zero => simp [framesConcat, drainGo]
    | succ f => simp [framesConcat, drainGo, hb]
  | cons p ps ih =>
    intro b fuel hwf hb hfuel
    have hsplit : framesConcat (p :: ps) ++ b = encodePacket p ++ (framesConcat ps ++ b) := by
      simp [framesConcat, List.append_assoc]
    have hlenE : (encodePacket p ++ (framesConcat ps ++ b)).length
        = 12 + p.length + (framesConcat ps ++ b).length := by
      rw [List.length_append, encodePacket_length]
    rw [hsplit] at hfuel ⊢
    cases fuel with
    | zero => omega
    | succ f =>
      have hrec := receive_complete p (framesConcat ps ++ b) (hwf p (by simp))
      have hd1 : drainGo f (framesConcat ps ++ b) = (ps, b) :=
        ih b f (fun x hx => hwf x (by simp [hx])) hb (by omega)
      simp only [drainGo, hrec, hd1]

/-- Any front portion of a stream of well-formed frames splits into a run of
complete frames followed by an undecodable remainder that is itself a front
portion of the remaining frames. -/
lemma decompose : ∀ (ps : List (List Nat)) (q : List Nat),
    (∀ p ∈ ps, p.length ≤ 32000000) →
    (∃ t, q ++ t = framesConcat ps) →
    ∃ (l r : List (List Nat)) (b : List Nat),
      ps = l ++ r ∧ q = framesConcat l ++ b ∧ try_receive_packet b = .notYet ∧
      (∃ t, b ++ t = framesConcat r) := by
  intro ps
  induction ps with
  | nil =>
    intro q _ hpre
    obtain ⟨t, ht⟩ := hpre
    have hq : q = [] := by
      have hl := congrArg List.length ht
      simp only [framesConcat, List.length_append, List.length_nil] at hl
      exact List.eq_nil_of_length_eq_zero (by omega)
    refine ⟨[], [], [], by simp, by simp [framesConcat, hq], ?_, ⟨[], by simp [framesConcat]⟩⟩
    exact receive_short [] (by simp)
  | cons p ps ih =>
    intro q hwf hpre
    obtain ⟨t, ht⟩ := hpre
    have htc : q ++ t = encodePacket p ++ framesConcat ps := by
      simpa [framesConcat] using ht
    by_cases hq : q.length < (encodePacket p).length
    · refine ⟨[], p :: ps, q, by simp, by simp [framesConcat], ?_, ⟨t, ht⟩⟩
      apply receive_partial p q (hwf p (by simp))
      · refine ⟨(encodePacket p).drop q.length, ?_⟩
        have h1 : (q ++ t).take q.length = q := List.take_left q t
        have h2 : (encodePacket p ++ framesConcat ps).take q.length
            = (encodePacket p).take q.length :=
          take_of_append_le _ _ _ (by omega)
        have hqtake : q = (encodePacket p).take q.length := by
          rw [← h2, ← htc, h1]
        nth_rewrite 1 [hqtake]
        exact List.take_append_drop _ _
      · rw [encodePacket_length] at hq
        omega
    · push_neg at hq
      have hE : q.take (encodePacket p).length = encodePacket p := by
        have h1 : (q ++ t).take (encodePacket p).length = q.take (encodePacket p).length :=
          take_of_append_le q t _ hq
        rw [htc] at h1
        rw [List.take_left] at h1
        exact h1.symm
      have hqsplit : q = encodePacket p ++ q.drop (encodePacket p).length := by
        conv_lhs => rw [← List.take_append_drop (encodePacket p).length q]
        rw [hE]
      have ht' : q.drop (encodePacket p).length ++ t = framesConcat ps := by
        have hassoc : encodePacket p ++ (q.drop (encodePacket p).length ++ t)
            = encodePacket p ++ framesConcat ps := by
          rw [← List.append_assoc, ← hqsplit]
          exact htc
        exact List.append_cancel_left hassoc
      obtain ⟨l, r, b, hps, hqeq, hbny, hbr⟩ :=
        ih (q.drop (encodePacket p).length) (fun x hx => hwf x (by simp [hx])) ⟨t, ht'⟩
      refine ⟨p :: l, r, b, by simp [hps], ?_, hbny, hbr⟩
      have hfc : framesConcat (p :: l) = encodePacket p ++ framesConcat l := by
        simp [framesConcat]
      rw [hfc, List.append_assoc, ← hqeq]
      exact hqsplit

/-- Feeding chunks whose concatenation is a stream of well-formed frames
delivers exactly those frames' payloads, in order, leaving an empty buffer. -/
lemma feed_go : ∀ (chunks : List (List Nat)) (acc : List (List Nat)) (buf : List Nat)
    (rem : List (List Nat)),
    (∀ p ∈ rem, p.length ≤ 32000000) →
    try_receive_packet buf = .notYet →
    buf ++ concatChunks chunks = framesConcat rem →
    feedGo acc buf chunks = (acc ++ rem, []) := by
  intro chunks
  induction chunks with
  | nil =>
    intro acc buf rem hwf hb heq
    simp only [concatChunks, List.append_nil] at heq
    cases rem with
    | nil =>
      simp only [framesConcat] at heq
      simp [feedGo, heq]
    | cons p ps =>
      exfalso
      have hfc : framesConcat (p :: ps) = encodePacket p ++ framesConcat ps := by
        simp [framesConcat]
      have hpk : try_receive_packet buf = .packet p (framesConcat ps) := by
        rw [heq, hfc]
        exact receive_complete p _ (hwf p (by simp))
      rw [hb] at hpk
      exact absurd hpk (by simp)
  | cons c cs ih =>
    intro acc buf rem hwf hb heq
    simp only [concatChunks] at heq
    have hpre : ∃ t, (buf ++ c) ++ t = framesConcat rem :=
      ⟨concatChunks cs, by rw [List.append_assoc]; exact heq⟩
    obtain ⟨l, r, b, hrem, hbc, hbny, hbr⟩ := decompose rem (buf ++ c) hwf hpre
    have hdrain : drainPackets (buf ++ c) = (l, b) := by
      unfold drainPackets
      rw [hbc]
      exact drain_exact l b _
        (fun x hx => hwf x (by rw [hrem]; exact List.mem_append_left _ hx)) hbny (le_refl _)
    have hd1 : (drainPackets (buf ++ c)).1 = l := by rw [hdrain]
    have hd2 : (drainPackets (buf ++ c)).2 = b := by rw [hdrain]
    have heq' : b ++ concatChunks cs = framesConcat r := by
      have h1 : (buf ++ c) ++ concatChunks cs = framesConcat l ++ framesConcat r := by
        rw [List.append_assoc, heq, hrem, framesConcat_append]
      rw [hbc, List.append_assoc] at h1
      exact List.append_cancel_left h1
    have hih := ih (acc ++ l) b r
      (fun x hx => hwf x (by rw [hrem]; exact List.mem_append_right _ hx)) hbny heq'
    simp only [feedGo, hd1, hd2, hih, hrem, List.append_assoc]

/-- CLAIM C1.  First part: for every sequence of well-formed encoded packets
(payload at most 32,000,000 bytes) delivered to the transport in arbitrary
byte-level chunks, draining try_receive_packet after every chunk yields
exactly the original payloads, in order, with nothing left buffered —
independently of the chunk boundaries, which are quantified away.  Second and
third parts: whenever fewer bytes than a complete frame are buffered — fewer
than the 12-byte header, or a valid header whose declared payload has not
fully arrived — try_receive_packet returns Ok(None) and consumes nothing. -/
theorem claim_C1 :
    (∀ (payloads chunks : List (List Nat)),
      (∀ p ∈ payloads, p.length ≤ 32000000) →
      concatChunks chunks = framesConcat payloads →
      feedChunks chunks = (payloads, []))
    ∧ (∀ buf : List Nat, buf.length < 12 →
        try_receive_packet buf = .notYet ∧ buffer_after buf = buf)
    ∧ (∀ buf : List Nat, buf.take 8 = PROTOCOL_HEADER → declared_len buf ≤ 32000000 →
        buf.length < 12 + declared_len buf →
        try_receive_packet buf = .notYet ∧ buffer_after buf = buf) := by
  refine ⟨?_, ?_, ?_⟩
  · intro payloads chunks hwf heq
    unfold feedChunks
    exact feed_go chunks [] [] payloads hwf (receive_short [] (by simp)) (by simpa using heq)
  · intro buf hlt
    have hny := receive_short buf hlt
    refine ⟨hny, ?_⟩
    unfold buffer_after
    rw [hny]
  · intro buf h8 hle hlt
    have hny : try_receive_packet buf = .notYet := by
      by_cases hshort : buf.length < 12
      · exact receive_short buf hshort
      · have h8len : (8 : Nat) ≤ buf.length := by omega
        have htk5 : buf.take 5 = MAGIC := by
          have h55 : (buf.take 8).take 5 = buf.take 5 := by
            rw [List.take_take]
            norm_num
          rw [← h55, h8]
          decide
        unfold try_receive_packet
        rw [htk5, h8, if_neg (by omega), if_neg (not_not_intro rfl),
          if_neg (not_not_intro rfl), if_neg (by omega), if_pos (by omega)]
    refine ⟨hny, ?_⟩
    unfold buffer_after
    rw [hny]

/-- Witness for C1: one packet with payload [1, 2, 3] split mid-header into
two chunks is still received as exactly that payload; a 3-byte buffer and a
valid header whose 5-byte payload has not arrived both give Ok(None) and
consume nothing. -/
theorem claim_C1_witness :
    feedChunks [[101, 116, 101, 114, 109, 0, 0], [1, 3, 0, 0, 0, 1, 2, 3]] = ([[1, 2, 3]], [])
    ∧ (try_receive_packet [101, 116, 101] = .notYet ∧ buffer_after [101, 116, 101] = [101, 116, 101])
    ∧ (try_receive_packet [101, 116, 101, 114, 109, 0, 0, 1, 5, 0, 0, 0] = .notYet
        ∧ buffer_after [101, 116, 101, 114, 109, 0, 0, 1, 5, 0, 0, 0]
            = [101, 116, 101, 114, 109, 0, 0, 1, 5, 0, 0, 0]) := by
  refine ⟨claim_C1.1 [[1, 2, 3]] _ (by decide) (by decide),
    claim_C1.2.1 [101, 116, 101] (by decide),
    claim_C1.2.2 [101, 116, 101, 114, 109, 0, 0, 1, 5, 0, 0, 0] (by decide) (by decide)
      (by decide)⟩

/-- Witness for C4 at a concrete small length with the payload present. -/
theorem claim_C4_witness :
    try_receive_packet (PROTOCOL_HEADER ++ u32ToLe 2 ++ [8, 9, 10])
      = .packet [8, 9] [10] := by
  have h := claim_C4 2 [8, 9, 10] (by norm_num)
  have h2 := h.2.2 (by norm_num) (by simp)
  simpa using h2

/-! Data model of the wire messages.  The two message enums and the net-shape
types are from the repository (lib.rs, net_shape.rs).  Their leaf payload
types come from the external egui/epaint crates and are modelled from the
specification: scalar floats become rationals, colors and texture ids become
opaque numbers, a text layout job and the opaque remainders of the input
snapshot and of the platform output become opaque byte lists. -/

/-- Modelled from the spec: an epaint screen position (two float scalars). -/
structure Pos2 where
  x : Rat
  y : Rat
deriving DecidableEq

/-- Modelled from the spec: an epaint stroke (width scalar plus color). -/
structure Stroke where
  width : Rat
  color : Nat
deriving DecidableEq

/-- Modelled from the spec: an epaint axis-aligned rectangle. -/
structure Rect where
  lo : Pos2
  hi : Pos2
deriving DecidableEq

/-- Modelled from the spec: epaint::CircleShape. -/
structure CircleShape where
  center : Pos2
  radius : Rat
  fill : Nat
  stroke : Stroke
deriving DecidableEq

/-- Modelled from the spec: epaint::PathShape. -/
structure PathShape where
  points : List Pos2
  closed : Bool
  fill : Nat
  stroke : Stroke
deriving DecidableEq

/-- Modelled from the spec: epaint::RectShape. -/
structure RectShape where
  rect : Rect
  corner_radius : Rat
  fill : Nat
  stroke : Stroke
deriving DecidableEq

/-- net_shape.rs: NetTextShape — position, self-describing layout job
(modelled from the spec as an opaque byte list), underline, optional color
override, angle. -/
structure NetTextShape where
  pos : Pos2
  job : List Nat
  underline : Stroke
  override_text_color : Option Nat
  angle : Rat
deriving DecidableEq

/-- net_shape.rs: NetMesh — a mesh flattened into parallel arrays. -/
structure NetMesh where
  texture_id : Nat
  indices : List Nat
  pos : List Pos2
  uv : List Pos2
  color : List Nat
deriving DecidableEq

/-- net_shape.rs: NetShape — the closed set of wire-shape variants. -/
inductive NetShape where
  | circle (c : CircleShape)
  | line_segment (p0 p1 : Pos2) (stroke : Stroke)
  | path (p : PathShape)
  | rect (r : RectShape)
  | text (t : NetTextShape)
  | mesh (m : NetMesh)
deriving DecidableEq

/-- net_shape.rs: ClippedNetShape(Rect, NetShape). -/
structure ClippedNetShape where
  clip_rect : Rect
  shape : NetShape
deriving DecidableEq

/-- Modelled from the spec: egui::RawInput — the input snapshot.  Only the
wall-clock time field is interpreted by the repository (server.rs overwrites
it); the rest of the snapshot (event lists, viewport geometry, ...) is
modelled as an opaque byte list. -/
structure RawInput where
  time : Option Rat
  events : List Nat
deriving DecidableEq

/-- Modelled from the spec: merging two input snapshots appends event lists
in arrival order, last-write-wins for scalar fields (egui RawInput::append). -/
def RawInput.append (a b : RawInput) : RawInput :=
  { time := b.time, events := a.events ++ b.events }

/-- The empty input snapshot (egui RawInput::default). -/
def defaultRawInput : RawInput :=
  { time := none, events := [] }

/-- Modelled from the spec: the render output returned by the UI engine.
needs_repaint is the immediate re-tick request; every other field (the side
effects: copied text, open-url command, ...) is an opaque byte list. -/
structure PlatformOutput where
  needs_repaint : Bool
  commands : List Nat
deriving DecidableEq

/-- The output with no side effects (egui Output::default). -/
def defaultPlatformOutput : PlatformOutput :=
  { needs_repaint := false, commands := [] }

/-- lib.rs: ClientToServerMessage. -/
inductive ClientToServerMessage where
  | input (raw_input : RawInput) (client_time : Rat)
  | goodbye
deriving DecidableEq

/-- lib.rs: ServerToClientMessage.  The font definitions payload is an
external egui type, modelled from the spec as an opaque byte list. -/
inductive ServerToClientMessage where
  | fonts (font_definitions : List Nat)
  | frame (frame_index : Nat) (platform_output : PlatformOutput)
      (clipped_net_shapes : List ClippedNetShape) (client_time : Option Rat)
deriving DecidableEq

/-! Message codec.  lib.rs encode_message serializes with bincode and then
compresses with zstd; decode_message reverses both steps.  bincode and zstd
are external crates, so both stages are modelled from the specification
(§4.2: a deterministic binary encoding followed by a general-purpose lossless
compressor whose decoder inverts the encoder). -/

/-- Modelled from the spec: bincode's encoding of one signed integer —
a sign tag followed by the magnitude. -/
def serInt (i : Int) : List Nat :=
  if i < 0 then [1, i.natAbs] else [0, i.natAbs]

/-- Modelled from the spec: a float scalar, encoded as a rational. -/
def serRat (q : Rat) : List Nat :=
  serInt q.num ++ [q.den]

/-- One boolean. -/
def serBool (b : Bool) : List Nat :=
  [cond b 1 0]

/-- One optional value: a presence tag followed by the value. -/
def serOption {α : Type} (f : α → List Nat) : Option α → List Nat
  | none => [0]
  | some x => 1 :: f x

/-- The elements of a list, one after the other. -/
def serListAux {α : Type} (f : α → List Nat) : List α → List Nat
  | [] => []
  | x :: xs => f x ++ serListAux f xs

/-- A length-prefixed sequence. -/
def serList {α : Type} (f : α → List Nat) (l : List α) : List Nat :=
  l.length :: serListAux f l

def serPos2 (p : Pos2) : List Nat := serRat p.x ++ serRat p.y

def serStroke (s : Stroke) : List Nat := serRat s.width ++ [s.color]

def serRect (r : Rect) : List Nat := serPos2 r.lo ++ serPos2 r.hi

def serCircle (c : CircleShape) : List Nat :=
  serPos2 c.center ++ serRat c.radius ++ [c.fill] ++ serStroke c.stroke

def serPath (p : PathShape) : List Nat :=
  serList serPos2 p.points ++ serBool p.closed ++ [p.fill] ++ serStroke p.stroke

def serRectShape (r : RectShape) : List Nat :=
  serRect r.rect ++ serRat r.corner_radius ++ [r.fill] ++ serStroke r.stroke

def serText (t : NetTextShape) : List Nat :=
  serPos2 t.pos ++ serList (fun n => [n]) t.job ++ serStroke t.underline
    ++ serOption (fun n => [n]) t.override_text_color ++ serRat t.angle

def serMesh (m : NetMesh) : List Nat :=
  [m.texture_id] ++ serList (fun n => [n]) m.indices ++ serList serPos2 m.pos
    ++ serList serPos2 m.uv ++ serList (fun n => [n]) m.color

def serNetShape : NetShape → List Nat
  | .circle c => 0 :: serCircle c
  | .line_segment p0 p1 st => 1 :: (serPos2 p0 ++ serPos2 p1 ++ serStroke st)
  | .path p => 2 :: serPath p
  | .rect r => 3 :: serRectShape r
  | .text t => 4 :: serText t
  | .mesh m => 5 :: serMesh m

def serClipped (c : ClippedNetShape) : List Nat :=
  serRect c.clip_rect ++ serNetShape c.shape

def serRawInput (r : RawInput) : List Nat :=
  serOption serRat r.time ++ serList (fun n => [n]) r.events

def serPlatformOutput (o : PlatformOutput) : List Nat :=
  serBool o.needs_repaint ++ serList (fun n => [n]) o.commands

/-- Modelled from the spec: bincode serialization of a client-to-server
message — a variant tag followed by the fields. -/
def serC2S : ClientToServerMessage → List Nat
  | .input raw t => 0 :: (serRawInput raw ++ serRat t)
  | .goodbye => [1]

/-- Modelled from the spec: bincode serialization of a server-to-client
message — a variant tag followed by the fields. -/
def serS2C : ServerToClientMessage → List Nat
  | .fonts fd => 0 :: serList (fun n => [n]) fd
  | .frame fi po shapes ct =>
    1 :: ([fi] ++ serPlatformOutput po ++ serList serClipped shapes ++ serOption serRat ct)

def pNat : List Nat → Option (Nat × List Nat)
  | [] => none
  | n :: r => some (n, r)

def pInt : List Nat → Option (Int × List Nat)
  | 0 :: m :: r => some ((m : Int), r)
  | 1 :: m :: r => some (-(m : Int), r)
  | _ => none

def pRat (l : List Nat) : Option (Rat × List Nat) :=
  match pInt l with
  | some (n, r) =>
    match r with
    | [] => none
    | d :: r' => some (mkRat n d, r')
  | none => none

def pBool : List Nat → Option (Bool × List Nat)
  | 0 :: r => some (false, r)
  | 1 :: r => some (true, r)
  | _ => none

def pOption {α : Type} (p : List Nat → Option (α × List Nat)) :
    List Nat → Option (Option α × List Nat)
  | 0 :: r => some (none, r)
  | 1 :: r =>
    match p r with
    | some (x, r') => some (some x, r')
    | none => none
  | _ => none

def pListN {α : Type} (p : List Nat → Option (α × List Nat)) :
    Nat → List Nat → Option (List α × List Nat)
  | 0, r => some ([], r)
  | n + 1, r =>
    match p r with
    | some (x, r') =>
      match pListN p n r' with
      | some (xs, r'') => some (x :: xs, r'')
      | none => none
    | none => none

def pList {α : Type} (p : List Nat → Option (α × List Nat)) :
    List Nat → Option (List α × List Nat)
  | [] => none
  | n :: r => pListN p n r

def pPos2 (l : List Nat) : Option (Pos2 × List Nat) :=
  match pRat l with
  | some (x, r) =>
    match pRat r with
    | some (y, r') => some (⟨x, y⟩, r')
    | none => none
  | none => none

def pStroke (l : List Nat) : Option (Stroke × List Nat) :=
  match pRat l with
  | some (w, r) =>
    match pNat r with
    | some (c, r') => some (⟨w, c⟩, r')
    | none => none
  | none => none

def pRect (l : List Nat) : Option (Rect × List Nat) :=
  match pPos2 l with
  | some (a, r) =>
    match pPos2 r with
    | some (b, r') => some (⟨a, b⟩, r')
    | none => none
  | none => none

def pCircle (l : List Nat) : Option (CircleShape × List Nat) :=
  match pPos2 l with
  | some (c, r1) =>
    match pRat r1 with
    | some (rad, r2) =>
      match pNat r2 with
      | some (f, r3) =>
        match pStroke r3 with
        | some (st, r4) => some (⟨c, rad, f, st⟩, r4)
        | none => none
      | none => none
    | none => none
  | none => none

def pPath (l : List Nat) : Option (PathShape × List Nat) :=
  match pList pPos2 l with
  | some (pts, r1) =>
    match pBool r1 with
    | some (cl, r2) =>
      match pNat r2 with
      | some (f, r3) =>
        match pStroke r3 with
        | some (st, r4) => some (⟨pts, cl, f, st⟩, r4)
        | none => none
      | none => none
    | none => none
  | none => none

def pRectShape (l : List Nat) : Option (RectShape × List Nat) :=
  match pRect l with
  | some (rc, r1) =>
    match pRat r1 with
    | some (cr, r2) =>
      match pNat r2 with
      | some (f, r3) =>
        match pStroke r3 with
        | some (st, r4) => some (⟨rc, cr, f, st⟩, r4)
        | none => none
      | none => none
    | none => none
  | none => none

def pText (l : List Nat) : Option (NetTextShape × List Nat) :=
  match pPos2 l with
  | some (ps, r1) =>
    match pList pNat r1 with
    | some (jb, r2) =>
      match pStroke r2 with
      | some (ul, r3) =>
        match pOption pNat r3 with
        | some (oc, r4) =>
          match pRat r4 with
          | some (an, r5) => some (⟨ps, jb, ul, oc, an⟩, r5)
          | none => none
        | none => none
      | none => none
    | none => none
  | none => none

def pMesh (l : List Nat) : Option (NetMesh × List Nat) :=
  match pNat l with
  | some (tid, r1) =>
    match pList pNat r1 with
    | some (idx, r2) =>
      match pList pPos2 r2 with
      | some (ps, r3) =>
        match pList pPos2 r3 with
        | some (uvs, r4) =>
          match pList pNat r4 with
          | some (cs, r5) => some (⟨tid, idx, ps, uvs, cs⟩, r5)
          | none => none
        | none => none
      | none => none
    | none => none
  | none => none

def pNetShape : List Nat → Option (NetShape × List Nat)
  | 0 :: r =>
    match pCircle r with
    | some (c, r') => some (.circle c, r')
    | none => none
  | 1 :: r =>
    match pPos2 r with
    | some (p0, r1) =>
      match pPos2 r1 with
      | some (p1, r2) =>
        match pStroke r2 with
        | some (st, r3) => some (.line_segment p0 p1 st, r3)
        | none => none
      | none => none
    | none => none
  | 2 :: r =>
    match pPath r with
    | some (p, r') => some (.path p, r')
    | none => none
  | 3 :: r =>
    match pRectShape r with
    | some (rs, r') => some (.rect rs, r')
    | none => none
  | 4 :: r =>
    match pText r with
    | some (t, r') => some (.text t, r')
    | none => none
  | 5 :: r =>
    match pMesh r with
    | some (m, r') => some (.mesh m, r')
    | none => none
  | _ => none

def pClipped (l : List Nat) : Option (ClippedNetShape × List Nat) :=
  match pRect l with
  | some (cr, r1) =>
    match pNetShape r1 with
    | some (sh, r2) => some (⟨cr, sh⟩, r2)
    | none => none
  | none => none

def pRawInput (l : List Nat) : Option (RawInput × List Nat) :=
  match pOption pRat l with
  | some (t, r1) =>
    match pList pNat r1 with
    | some (ev, r2) => some (⟨t, ev⟩, r2)
    | none => none
  | none => none

def pPlatformOutput (l : List Nat) : Option (PlatformOutput × List Nat) :=
  match pBool l with
  | some (nr, r1) =>
    match pList pNat r1 with
    | some (cm, r2) => some (⟨nr, cm⟩, r2)
    | none => none
  | none => none

def pC2S : List Nat → Option (ClientToServerMessage × List Nat)
  | 0 :: r =>
    match pRawInput r with
    | some (raw, r1) =>
      match pRat r1 with
      | some (t, r2) => some (.input raw t, r2)
      | none => none
    | none => none
  | 1 :: r => some (.goodbye, r)
  | _ => none

def pS2C : List Nat → Option (ServerToClientMessage × List Nat)
  | 0 :: r =>
    match pList pNat r with
    | some (fd, r1) => some (.fonts fd, r1)
    | none => none
  | 1 :: r =>
    match pNat r with
    | some (fi, r1) =>
      match pPlatformOutput r1 with
      | some (po, r2) =>
        match pList pClipped r2 with
        | some (shapes, r3) =>
          match pOption pRat r3 with
          | some (ct, r4) => some (.frame fi po shapes ct, r4)
          | none => none
        | none => none
      | none => none
    | none => none
  | _ => none

lemma pNat_ser (n : Nat) (r : List Nat) : pNat (n :: r) = some (n, r) := rfl

lemma pInt_ser (i : Int) (r : List Nat) : pInt (serInt i ++ r) = some (i, r) := by
  by_cases h : i < 0
  · simp only [serInt, if_pos h, List.cons_append, List.nil_append, pInt]
    have habs : ((i.natAbs : Int)) = -i := by omega
    rw [habs, neg_neg]
  · simp only [serInt, if_neg h, List.cons_append, List.nil_append, pInt]
    have habs : ((i.natAbs : Int)) = i := by omega
    rw [habs]

lemma pRat_ser (q : Rat) (r : List Nat) : pRat (serRat q ++ r) = some (q, r) := by
  unfold serRat pRat
  rw [List.append_assoc, pInt_ser]
  simp [Rat.mkRat_self]

lemma pBool_ser (b : Bool) (r : List Nat) : pBool (serBool b ++ r) = some (b, r) := by
  cases b <;> simp [serBool, pBool]

lemma pOption_ser {α : Type} (f : α → List Nat) (p : List Nat → Option (α × List Nat))
    (hf : ∀ x r, p (f x ++ r) = some (x, r)) (o : Option α) (r : List Nat) :
    pOption p (serOption f o ++ r) = some (o, r) := by
  cases o with
  | none => simp [serOption, pOption]
  | some x => simp [serOption, pOption, hf]

lemma pListN_ser {α : Type} (f : α → List Nat) (p : List Nat → Option (α × List Nat))
    (hf : ∀ x r, p (f x ++ r) = some (x, r)) :
    ∀ (l : List α) (r : List Nat), pListN p l.length (serListAux f l ++ r) = some (l, r) := by
  intro l
  induction l with
  | nil => intro r; simp [serListAux, pListN]
  | cons x xs ih =>
    intro r
    simp only [serListAux, List.length_cons, pListN, List.append_assoc, hf, ih]

lemma pList_ser {α : Type} (f : α → List Nat) (p : List Nat → Option (α × List Nat))
    (hf : ∀ x r, p (f x ++ r) = some (x, r)) (l : List α) (r : List Nat) :
    pList p (serList f l ++ r) = some (l, r) := by
  simp only [serList, List.cons_append, pList]
  exact pListN_ser f p hf l r

lemma pNatId_ser (n : Nat) (r : List Nat) : pNat ((fun m => [m]) n ++ r) = some (n, r) := rfl

lemma pPos2_ser (x : Pos2) (r : List Nat) : pPos2 (serPos2 x ++ r) = some (x, r) := by
  simp only [serPos2, pPos2, List.append_assoc, pRat_ser]

lemma pStroke_ser (s : Stroke) (r : List Nat) : pStroke (serStroke s ++ r) = some (s, r) := by
  simp only [serStroke, pStroke, List.append_assoc, pRat_ser, List.cons_append,
    List.nil_append, pNat]

lemma pRect_ser (x : Rect) (r : List Nat) : pRect (serRect x ++ r) = some (x, r) := by
  simp only [serRect, pRect, List.append_assoc, pPos2_ser]

lemma pCircle_ser (c : CircleShape) (r : List Nat) : pCircle (serCircle c ++ r) = some (c, r) := by
  simp only [serCircle, pCircle, List.append_assoc, pPos2_ser, pRat_ser, List.cons_append,
    List.nil_append, pNat, pStroke_ser]

lemma pPath_ser (x : PathShape) (r : List Nat) : pPath (serPath x ++ r) = some (x, r) := by
  simp only [serPath, pPath, List.append_assoc, pList_ser serPos2 pPos2 pPos2_ser,
    pBool_ser, List.cons_append, List.nil_append, pNat, pStroke_ser]

lemma pRectShape_ser (x : RectShape) (r : List Nat) :
    pRectShape (serRectShape x ++ r) = some (x, r) := by
  simp only [serRectShape, pRectShape, List.append_assoc, pRect_ser, pRat_ser,
    List.cons_append, List.nil_append, pNat, pStroke_ser]

lemma pText_ser (t : NetTextShape) (r : List Nat) : pText (serText t ++ r) = some (t, r) := by
  simp only [serText, pText, List.append_assoc, pPos2_ser,
    pList_ser (fun n => [n]) pNat pNatId_ser, pStroke_ser,
    pOption_ser (fun n => [n]) pNat pNatId_ser, pRat_ser]

lemma pMesh_ser (m : NetMesh) (r : List Nat) : pMesh (serMesh m ++ r) = some (m, r) := by
  simp only [serMesh, pMesh, List.append_assoc, List.cons_append, List.nil_append, pNat,
    pList_ser (fun n => [n]) pNat pNatId_ser, pList_ser serPos2 pPos2 pPos2_ser]

lemma pNetShape_ser (s : NetShape) (r : List Nat) :
    pNetShape (serNetShape s ++ r) = some (s, r) := by
  cases s with
  | circle c => simp only [serNetShape, List.cons_append, pNetShape, pCircle_ser]
  | line_segment p0 p1 st =>
    simp only [serNetShape, List.cons_append, pNetShape, List.append_assoc, pPos2_ser,
      pStroke_ser]
  | path p => simp only [serNetShape, List.cons_append, pNetShape, pPath_ser]
  | rect x => simp only [serNetShape, List.cons_append, pNetShape, pRectShape_ser]
  | text t => simp only [serNetShape, List.cons_append, pNetShape, pText_ser]
  | mesh m => simp only [serNetShape, List.cons_append, pNetShape, pMesh_ser]

lemma pClipped_ser (c : ClippedNetShape) (r : List Nat) :
    pClipped (serClipped c ++ r) = some (c, r) := by
  simp only [serClipped, pClipped, List.append_assoc, pRect_ser, pNetShape_ser]

lemma pRawInput_ser (x : RawInput) (r : List Nat) :
    pRawInput (serRawInput x ++ r) = some (x, r) := by
  simp only [serRawInput, pRawInput, List.append_assoc,
    pOption_ser serRat pRat pRat_ser, pList_ser (fun n => [n]) pNat pNatId_ser]

lemma pPlatformOutput_ser (o : PlatformOutput) (r : List Nat) :
    pPlatformOutput (serPlatformOutput o ++ r) = some (o, r) := by
  simp only [serPlatformOutput, pPlatformOutput, List.append_assoc, pBool_ser,
    pList_ser (fun n => [n]) pNat pNatId_ser]

lemma pC2S_ser (m : ClientToServerMessage) (r : List Nat) :
    pC2S (serC2S m ++ r) = some (m, r) := by
  cases m with
  | input raw t =>
    simp only [serC2S, List.cons_append, pC2S, List.append_assoc, pRawInput_ser, pRat_ser]
  | goodbye => simp [serC2S, pC2S]

lemma pS2C_ser (m : ServerToClientMessage) (r : List Nat) :
    pS2C (serS2C m ++ r) = some (m, r) := by
  cases m with
  | fonts fd =>
    simp only [serS2C, List.cons_append, pS2C, pList_ser (fun n => [n]) pNat pNatId_ser]
  | frame fi po shapes ct =>
    simp only [serS2C, List.cons_append, pS2C, List.append_assoc, List.nil_append, pNat,
      pPlatformOutput_ser, pList_ser serClipped pClipped pClipped_ser,
      pOption_ser serRat pRat pRat_ser]

/-- Modelled from the spec: the zstd frame magic. -/
def ZSTD_MAGIC : List Nat := [40, 181, 47, 253]

/-- Modelled from the spec: zstd::encode_all — an external lossless
general-purpose compressor, modelled as a magic-framed byte transform. -/
def zstd_encode_all (l : List Nat) : List Nat := ZSTD_MAGIC ++ l

/-- Modelled from the spec: zstd::decode_all — inverts the compressor,
failing on input that is not a zstd frame. -/
def zstd_decode_all (l : List Nat) : Option (List Nat) :=
  if l.take 4 = ZSTD_MAGIC then some (l.drop 4) else none

/-- lib.rs encode_message for client-to-server messages: bincode then zstd. -/
def encode_message_c2s (m : ClientToServerMessage) : List Nat :=
  zstd_encode_all (serC2S m)

/-- lib.rs decode_message for client-to-server messages: zstd then bincode;
bincode (with options()) rejects trailing bytes. -/
def decode_message_c2s (packet : List Nat) : Option ClientToServerMessage :=
  match zstd_decode_all packet with
  | some bs =>
    match pC2S bs with
    | some (m, []) => some m
    | _ => none
  | none => none

/-- lib.rs encode_message for server-to-client messages: bincode then zstd. -/
def encode_message_s2c (m : ServerToClientMessage) : List Nat :=
  zstd_encode_all (serS2C m)

/-- lib.rs decode_message for server-to-client messages: zstd then bincode. -/
def decode_message_s2c (packet : List Nat) : Option ServerToClientMessage :=
  match zstd_decode_all packet with
  | some bs =>
    match pS2C bs with
    | some (m, []) => some m
    | _ => none
  | none => none

lemma zstd_roundtrip (l : List Nat) : zstd_decode_all (zstd_encode_all l) = some l := by
  simp [zstd_encode_all, zstd_decode_all, ZSTD_MAGIC]

/-- CLAIM C2.  Decoding the packet produced by encoding any constructible
message yields that message back, for both message enums. -/
theorem claim_C2 :
    (∀ m : ClientToServerMessage, decode_message_c2s (encode_message_c2s m) = some m)
    ∧ (∀ m : ServerToClientMessage, decode_message_s2c (encode_message_s2c m) = some m) := by
  constructor
  · intro m
    unfold decode_message_c2s encode_message_c2s
    rw [zstd_roundtrip]
    have h := pC2S_ser m []
    rw [List.append_nil] at h
    simp [h]
  · intro m
    unfold decode_message_s2c encode_message_s2c
    rw [zstd_roundtrip]
    have h := pS2C_ser m []
    rw [List.append_nil] at h
    simp [h]

/-! Sliding-window history and viewer telemetry.  egui::util::History is an
external crate type; it is modelled from the specification (§4.3).  The
accessors and the update loop below are from client.rs. -/

/-- Modelled from the spec: a time-windowed sample store, configured with a
minimum sample count, a maximum sample count and a maximum age; samples are
(timestamp, value) pairs in non-decreasing timestamp order. -/
structure History where
  min_len : Nat
  max_len : Nat
  max_age : Rat
  values : List (Rat × Rat)
deriving DecidableEq

/-- Modelled from the spec: add(timestamp, value) appends a sample. -/
def History.add (h : History) (now : Rat) (value : Rat) : History :=
  { h with values := h.values ++ [(now, value)] }

/-- Drop stale samples from the front, but never below min_len samples. -/
def flushDrop (min_len : Nat) (cutoff : Rat) : List (Rat × Rat) → List (Rat × Rat)
  | [] => []
  | (t, v) :: rest =>
    if min_len < rest.length + 1 ∧ t < cutoff then flushDrop min_len cutoff rest
    else (t, v) :: rest

/-- Drop samples from the front down to the maximum count. -/
def capDrop (max_len : Nat) (l : List (Rat × Rat)) : List (Rat × Rat) :=
  l.drop (l.length - max_len)

/-- Modelled from the spec: flush(now) evicts samples older than max_age
(and beyond max_len), but never below the min_len most recent samples. -/
def History.flush (h : History) (now : Rat) : History :=
  { h with values := flushDrop h.min_len (now - h.max_age) (capDrop h.max_len h.values) }

/-- Modelled from the spec: the arithmetic mean of the present values, or
empty if none are present. -/
def History.average (h : History) : Option Rat :=
  if h.values.length = 0 then none
  else some ((h.values.map Prod.snd).sum / (h.values.length : Rat))

/-- Modelled from the spec: sample count over time span, empty below two
samples. -/
def History.rate (h : History) : Option Rat :=
  match h.values.head?, h.values.getLast? with
  | some a, some b => if h.values.length < 2 then none
      else some ((h.values.length : Rat) / (b.1 - a.1))
  | _, _ => none

/-- Modelled from the spec: sum of values over time span, empty below two
samples. -/
def History.sum_over_time (h : History) : Option Rat :=
  match h.values.head?, h.values.getLast? with
  | some a, some b => if h.values.length < 2 then none
      else some (((h.values.map Prod.snd).sum) / (b.1 - a.1))
  | _, _ => none

/-- A history is windowed at a given time when flushing at that time changes
nothing: no evictable stale sample is present. -/
def History.windowed (h : History) (now : Rat) : Prop :=
  h.flush now = h

/-- client.rs: the telemetry state of the viewer Client.  The constructor
uses History::new(0..200, 2.0) for bandwidth, History::new(1..100, 1.0) for
latency and History::new(2..100, 1.0) for frame rate. -/
structure ViewerState where
  bandwidth_history : History
  latency_history : History
  frame_history : History
deriving DecidableEq

/-- client.rs Client::new — the three fresh histories. -/
def newViewer : ViewerState :=
  { bandwidth_history := ⟨0, 200, 2, []⟩
  , latency_history := ⟨1, 100, 1, []⟩
  , frame_history := ⟨2, 100, 1, []⟩ }

/-- client.rs bytes_per_second: bandwidth_history.sum_over_time().unwrap_or(0.0). -/
def bytes_per_second (v : ViewerState) : Rat :=
  (v.bandwidth_history.sum_over_time).getD 0

/-- client.rs latency: latency_history.average(). -/
def latency (v : ViewerState) : Option Rat :=
  v.latency_history.average

/-- client.rs adaptive_fps: frame_history.rate(). -/
def adaptive_fps (v : ViewerState) : Option Rat :=
  v.frame_history.rate

/-- The bandwidth read as the claim describes it: evict stale samples with
the current time, then compute (used as the reference to compare the code's
accessor against). -/
def bytes_per_second_flushing (v : ViewerState) (now : Rat) : Rat :=
  ((v.bandwidth_history.flush now).sum_over_time).getD 0

/-- client.rs Client::update, message loop body: a Frame with an echoed
client time records one latency sample now - echoed and always records one
frame-rate sample; a Fonts message records nothing. -/
def update_step (now : Rat) (v : ViewerState) : ServerToClientMessage → ViewerState
  | .fonts _ => v
  | .frame _ _ _ ct =>
    let v1 := match ct with
      | some t => { v with latency_history := v.latency_history.add now (now - t) }
      | none => v
    { v1 with frame_history := v1.frame_history.add now 0 }

/-- client.rs Client::update: drain the incoming messages, then flush the
bandwidth and latency histories with the current time (the frame history is
not flushed there). -/
def client_update (v : ViewerState) (msgs : List ServerToClientMessage) (now : Rat) :
    ViewerState :=
  let v1 := msgs.foldl (update_step now) v
  { v1 with bandwidth_history := v1.bandwidth_history.flush now
          , latency_history := v1.latency_history.flush now }

lemma flushDrop_length (m : Nat) (c : Rat) :
    ∀ l : List (Rat × Rat), (flushDrop m c l).length ≤ l.length := by
  intro l
  induction l with
  | nil => simp [flushDrop]
  | cons a rest ih =>
    obtain ⟨t, v⟩ := a
    by_cases hc : m < rest.length + 1 ∧ t < c
    · rw [flushDrop, if_pos hc]
      simp only [List.length_cons]
      omega
    · rw [flushDrop, if_neg hc]

lemma flushDrop_idem (m : Nat) (c : Rat) :
    ∀ l : List (Rat × Rat), flushDrop m c (flushDrop m c l) = flushDrop m c l := by
  intro l
  induction l with
  | nil => simp [flushDrop]
  | cons a rest ih =>
    obtain ⟨t, v⟩ := a
    by_cases hc : m < rest.length + 1 ∧ t < c
    · rw [flushDrop, if_pos hc, ih]
    · rw [flushDrop, if_neg hc, flushDrop, if_neg hc]

lemma capDrop_length (m : Nat) (l : List (Rat × Rat)) : (capDrop m l).length ≤ m := by
  simp only [capDrop, List.length_drop]
  omega

lemma capDrop_of_le (m : Nat) (l : List (Rat × Rat)) (h : l.length ≤ m) : capDrop m l = l := by
  simp only [capDrop]
  have : l.length - m = 0 := by omega
  rw [this, List.drop_zero]

/-- Flushing is idempotent: a freshly flushed history is windowed. -/
lemma flush_windowed (h : History) (now : Rat) : (h.flush now).windowed now := by
  unfold History.windowed History.flush
  dsimp only
  have hlen : (flushDrop h.min_len (now - h.max_age) (capDrop h.max_len h.values)).length
      ≤ h.max_len :=
    le_trans (flushDrop_length _ _ _) (capDrop_length _ _)
  rw [capDrop_of_le _ _ hlen, flushDrop_idem]

/-- CLAIM C8, corrected.  The telemetry accessors do not evict; eviction
happens inside Client::update, which flushes the bandwidth and latency
histories with the current time on every call — so after any update those
two histories hold no evictable stale sample (the frame-rate history is not
flushed there). -/
theorem claim_C8 (v : ViewerState) (msgs : List ServerToClientMessage) (now : Rat) :
    ((client_update v msgs now).bandwidth_history).windowed now
    ∧ ((client_update v msgs now).latency_history).windowed now := by
  unfold client_update
  exact ⟨flush_windowed _ now, flush_windowed _ now⟩

/-- Counterexample for C8 as stated: a viewer whose bandwidth history holds
two samples from times 0 and 1 (window 2 seconds, minimum count 0), read at
time 50.  The accessor bytes_per_second reports 200 bytes/s from those
long-stale samples; reading after evicting samples older than the window, as
the claim describes, reports 0.  So a read does not evict first, and it does
report samples outside the configured window. -/
theorem claim_C8_counterexample :
    bytes_per_second ⟨⟨0, 200, 2, [(0, 100), (1, 100)]⟩, ⟨1, 100, 1, []⟩, ⟨2, 100, 1, []⟩⟩ = 200
    ∧ bytes_per_second_flushing
        ⟨⟨0, 200, 2, [(0, 100), (1, 100)]⟩, ⟨1, 100, 1, []⟩, ⟨2, 100, 1, []⟩⟩ 50 = 0
    ∧ bytes_per_second ⟨⟨0, 200, 2, [(0, 100), (1, 100)]⟩, ⟨1, 100, 1, []⟩, ⟨2, 100, 1, []⟩⟩
      ≠ bytes_per_second_flushing
        ⟨⟨0, 200, 2, [(0, 100), (1, 100)]⟩, ⟨1, 100, 1, []⟩, ⟨2, 100, 1, []⟩⟩ 50 := by
  have h1 : bytes_per_second
      ⟨⟨0, 200, 2, [(0, 100), (1, 100)]⟩, ⟨1, 100, 1, []⟩, ⟨2, 100, 1, []⟩⟩ = 200 := by
    norm_num [bytes_per_second, History.sum_over_time]
  have h2 : bytes_per_second_flushing
      ⟨⟨0, 200, 2, [(0, 100), (1, 100)]⟩, ⟨1, 100, 1, []⟩, ⟨2, 100, 1, []⟩⟩ 50 = 0 := by
    norm_num [bytes_per_second_flushing, History.flush, History.sum_over_time, flushDrop,
      capDrop]
  refine ⟨h1, h2, ?_⟩
  rw [h1, h2]
  norm_num

/-! Host session table (server.rs).  The external egui context and the UI
callback are modelled as an oracle passed to each tick: the function taking
the input snapshot actually handed to egui::CtxRef::run and returning the
produced output together with the already projected wire shapes (run composed
with to_clipped_net_shapes).  Instants become rationals: last_update stores
the time of the last render, and elapsed times are differences against the
now argument of the tick. -/

/-- server.rs: struct Client — the per-session server-side state.  The
tcp_endpoint handle is modelled by its presence; egui_ctx is the opaque
retained UI-engine context (mutated only by the external engine, so modelled
as an uninterpreted token). -/
structure Client where
  client_id : Nat
  tcp_endpoint : Bool
  start_time : Rat
  frame_index : Nat
  egui_ctx : Nat
  input : Option RawInput
  client_time : Option Rat
  last_update : Option Rat
  last_visuals : List ClippedNetShape
deriving DecidableEq

/-- Result of one Client::show call: the new session state, the messages
sent on the wire, and — when a render happened — the input snapshot passed
to the UI engine (none when the tick skipped the session). -/
structure ShowResult where
  state : Client
  sent : List ServerToClientMessage
  ranInput : Option RawInput
deriving DecidableEq

/-- server.rs Client::disconnect: clear only the connection handle and the
last-sent visuals. -/
def Client.disconnect (c : Client) : Client :=
  { c with tcp_endpoint := false, last_visuals := [] }

/-- server.rs Client::show, diff-and-send step: if the cleared output equals
the default and the projected shapes equal the last-sent snapshot, send
nothing and change nothing; otherwise assign the current frame index, bump
the counter, store the snapshot and send one Frame — a failed send
disconnects instead of sending. -/
def showStep (c1 : Client) (output : PlatformOutput) (shapes : List ClippedNetShape)
    (client_time : Option Rat) (sendOk : Bool) : Client × List ServerToClientMessage :=
  if output = defaultPlatformOutput ∧ shapes = c1.last_visuals then (c1, [])
  else if sendOk then
    ({ c1 with frame_index := c1.frame_index + 1, last_visuals := shapes },
      [ServerToClientMessage.frame c1.frame_index output shapes client_time])
  else (({ c1 with frame_index := c1.frame_index + 1, last_visuals := shapes }).disconnect, [])

/-- server.rs Client::show, tail: a needs_repaint output reschedules by
synthesizing an empty pending input. -/
def showFinish (s : Client × List ServerToClientMessage) (needs_repaint : Bool)
    (input : RawInput) : ShowResult :=
  ⟨if needs_repaint then { s.1 with input := some defaultRawInput } else s.1, s.2, some input⟩

/-- server.rs Client::show, render path: stamp last_update with now, replace
the input's time with the host-side seconds since the session started
(ignoring any client-supplied time), run the engine, then diff and send. -/
def Client.showRender (c : Client) (doUi : RawInput → PlatformOutput × List ClippedNetShape)
    (now : Rat) (client_time : Option Rat) (input0 : RawInput) (sendOk : Bool) : ShowResult :=
  showFinish
    (showStep { c with last_update := some now }
      { (doUi { input0 with time := some (now - c.start_time) }).1 with needs_repaint := false }
      (doUi { input0 with time := some (now - c.start_time) }).2
      client_time sendOk)
    (doUi { input0 with time := some (now - c.start_time) }).1.needs_repaint
    { input0 with time := some (now - c.start_time) }

/-- server.rs Client::show (lines 144-208): nothing happens without a
connection; the pending client time and input are taken (cleared) up front;
with pending input the session renders; without it the session renders only
if there was no previous update or the time since the last update exceeds
the minimum update interval, and otherwise skips, sending nothing and
rendering nothing. -/
def Client.show (c : Client) (doUi : RawInput → PlatformOutput × List ClippedNetShape)
    (minimum_update_interval : Rat) (now : Rat) (sendOk : Bool) : ShowResult :=
  if c.tcp_endpoint = false then ⟨c, [], none⟩
  else
    match c.input with
    | some i =>
      Client.showRender { c with client_time := none, input := none } doUi now
        c.client_time i sendOk
    | none =>
      match c.last_update with
      | none =>
        Client.showRender { c with client_time := none, input := none } doUi now
          c.client_time defaultRawInput sendOk
      | some t =>
        if minimum_update_interval < now - t then
          Client.showRender { c with client_time := none, input := none } doUi now
            c.client_time defaultRawInput sendOk
        else ⟨{ c with client_time := none, input := none }, [], none⟩

/-- One unit received on a session's socket: a decoded message, or a
read/decode error. -/
inductive NetIn where
  | msg (m : ClientToServerMessage)
  | ioErr
deriving DecidableEq

/-- server.rs Client::input — merge newly arrived input into the single
pending slot. -/
def Client.mergeInput (c : Client) (new : RawInput) : Client :=
  match c.input with
  | none => { c with input := some new }
  | some i => { c with input := some (i.append new) }

/-- server.rs Client::try_receive: poll messages while connected; an Input
message is merged and its client time recorded, polling continues; Goodbye
or an error disconnects and stops. -/
def Client.tryReceive : Client → List NetIn → Client
  | c, [] => c
  | c, e :: rest =>
    if c.tcp_endpoint then
      match e with
      | .msg (.input raw ct) =>
        Client.tryReceive { c.mergeInput raw with client_time := some ct } rest
      | .msg .goodbye => c.disconnect
      | .ioErr => c.disconnect
    else c

/-- An externally observable event in the life of one host session: a render
tick (with its wall time, UI oracle and send outcome), a batch of received
socket units, or a reconnect of the same identity (accept_new_clients
setting the connection handle on the retained session). -/
inductive SessionEvent where
  | tick (now : Rat) (doUi : RawInput → PlatformOutput × List ClippedNetShape) (sendOk : Bool)
  | recv (incoming : List NetIn)
  | reconnect

/-- One session event applied to a session, with the messages it sent. -/
def sessionStep (mi : Rat) (c : Client) : SessionEvent → Client × List ServerToClientMessage
  | .tick now doUi sendOk =>
    ((c.show doUi mi now sendOk).state, (c.show doUi mi now sendOk).sent)
  | .recv ins => (c.tryReceive ins, [])
  | .reconnect => ({ c with tcp_endpoint := true }, [])

/-- A whole trace of session events, collecting every message sent. -/
def sessionRun (mi : Rat) : Client → List SessionEvent → Client × List ServerToClientMessage
  | c, [] => (c, [])
  | c, e :: es =>
    ((sessionRun mi (sessionStep mi c e).1 es).1,
      (sessionStep mi c e).2 ++ (sessionRun mi (sessionStep mi c e).1 es).2)

/-- The frame_index fields carried by the Frame messages of a sent list. -/
def frame_indices (msgs : List ServerToClientMessage) : List Nat :=
  msgs.filterMap fun m =>
    match m with
    | .frame i _ _ _ => some i
    | .fonts _ => none

/-- Recognizer for Frame messages. -/
def ServerToClientMessage.isFrame : ServerToClientMessage → Bool
  | .frame _ _ _ _ => true
  | .fonts _ => false

/-- server.rs: struct Server — session table keyed by the remote address
(addresses modelled as numbers), the next fresh client id, and the minimum
update interval (default one second). -/
structure Server where
  next_client_id : Nat
  clients : List (Nat × Client)
  minimum_update_interval : Rat

/-- server.rs accept_new_clients, or_insert_with closure: the fresh session
inserted for a previously unseen address. -/
def newServerClient (id : Nat) (now : Rat) : Client :=
  { client_id := id, tcp_endpoint := false, start_time := now, frame_index := 0,
    egui_ctx := 0, input := none, client_time := none, last_update := none,
    last_visuals := [] }

/-- The session stored for an address, if any. -/
def lookupClient (s : Server) (addr : Nat) : Option Client :=
  (s.clients.find? (fun p => p.1 = addr)).map Prod.snd

/-- server.rs accept_new_clients, one accepted connection: reuse the session
keyed by this address when present — especially its egui context — setting
only its connection handle; otherwise insert a fresh session with the next
client id.  Nothing is sent (the Fonts send is an unimplemented TODO in the
source). -/
def server_accept_one (s : Server) (addr : Nat) (now : Rat) : Server :=
  if (s.clients.find? (fun p => p.1 = addr)).isSome then
    { s with clients := s.clients.map (fun p =>
        if p.1 = addr then (p.1, { p.2 with tcp_endpoint := true }) else p) }
  else
    { s with
      clients := s.clients
        ++ [(addr, { newServerClient s.next_client_id now with tcp_endpoint := true })]
      next_client_id := s.next_client_id + 1 }

/-- server.rs accept_new_clients: accept every pending connection. -/
def server_accept (s : Server) : List (Nat × Rat) → Server
  | [] => s
  | (addr, now) :: rest => server_accept (server_accept_one s addr now) rest

/-- server.rs Server::try_receive: poll every session's socket. -/
def server_try_receive (s : Server) (recvs : Nat → List NetIn) : Server :=
  { s with clients := s.clients.map (fun p => (p.1, p.2.tryReceive (recvs p.1))) }

/-- Tick every session in table order, collecting everything sent. -/
def tickClients (doUi : Nat → RawInput → PlatformOutput × List ClippedNetShape)
    (mi now : Rat) (sendOk : Nat → Bool) :
    List (Nat × Client) → List (Nat × Client) × List ServerToClientMessage
  | [] => ([], [])
  | (a, c) :: rest =>
    ((a, (c.show (doUi c.client_id) mi now (sendOk a)).state)
        :: (tickClients doUi mi now sendOk rest).1,
      (c.show (doUi c.client_id) mi now (sendOk a)).sent
        ++ (tickClients doUi mi now sendOk rest).2)

/-- server.rs Server::show (via show_dyn): accept new connections, poll every
session's socket, then run every session's render tick. -/
def server_show (s : Server) (conns : List (Nat × Rat)) (recvs : Nat → List NetIn)
    (doUi : Nat → RawInput → PlatformOutput × List ClippedNetShape) (now : Rat)
    (sendOk : Nat → Bool) : Server × List ServerToClientMessage :=
  ({ server_try_receive (server_accept s conns) recvs with
      clients := (tickClients doUi
        (server_try_receive (server_accept s conns) recvs).minimum_update_interval now sendOk
        (server_try_receive (server_accept s conns) recvs).clients).1 },
    (tickClients doUi
      (server_try_receive (server_accept s conns) recvs).minimum_update_interval now sendOk
      (server_try_receive (server_accept s conns) recvs).clients).2)

/-- The input snapshot a render passes to the engine is reported verbatim. -/
lemma showRender_ranInput (c : Client) (doUi : RawInput → PlatformOutput × List ClippedNetShape)
    (now : Rat) (ct : Option Rat) (i0 : RawInput) (sOk : Bool) :
    (Client.showRender c doUi now ct i0 sOk).ranInput
      = some { i0 with time := some (now - c.start_time) } := rfl

/-- CLAIM C10.  Whenever a tick renders, the input snapshot passed to the UI
engine carries time = host seconds since the session started (now minus
start_time) — whatever time the client supplied in its merged input. -/
theorem claim_C10 (c : Client) (doUi : RawInput → PlatformOutput × List ClippedNetShape)
    (mi now : Rat) (sOk : Bool) (i : RawInput)
    (h : (Client.show c doUi mi now sOk).ranInput = some i) :
    i.time = some (now - c.start_time) := by
  unfold Client.show at h
  by_cases hc : c.tcp_endpoint = false
  · rw [if_pos hc] at h
    exact absurd h (by simp)
  · rw [if_neg hc] at h
    rcases hin : c.input with - | i0 <;> rw [hin] at h <;> dsimp only at h
    · rcases hlu : c.last_update with - | t <;> rw [hlu] at h <;> dsimp only at h
      · rw [showRender_ranInput] at h
        obtain rfl := Option.some.inj h
        rfl
      · by_cases hgt : mi < now - t
        · rw [if_pos hgt, showRender_ranInput] at h
          obtain rfl := Option.some.inj h
          rfl
        · rw [if_neg hgt] at h
          exact absurd h (by simp)
    · rw [showRender_ranInput] at h
      obtain rfl := Option.some.inj h
      rfl

/-- Witness for C10: a session whose pending input carries client time 999
still hands the engine an input stamped now - start_time = 5 - 0. -/
theorem claim_C10_witness :
    (⟨some ((5 : Rat) - 0), []⟩ : RawInput).time = some ((5 : Rat) - 0) :=
  claim_C10 ⟨0, true, 0, 0, 0, some ⟨some 999, []⟩, none, none, []⟩
    (fun _ => (defaultPlatformOutput, [])) 1 5 true ⟨some ((5 : Rat) - 0), []⟩ rfl

lemma showStep_sent_frames (c1 : Client) (o : PlatformOutput) (sh : List ClippedNetShape)
    (ct : Option Rat) (sOk : Bool) :
    ∀ m ∈ (showStep c1 o sh ct sOk).2, m.isFrame = true := by
  unfold showStep
  split_ifs with h1 h2
  · simp
  · simp [ServerToClientMessage.isFrame]
  · simp

lemma showFinish_sent (s : Client × List ServerToClientMessage) (nr : Bool) (inp : RawInput) :
    (showFinish s nr inp).sent = s.2 := by
  unfold showFinish
  cases nr <;> simp

lemma show_sent_frames (c : Client) (doUi : RawInput → PlatformOutput × List ClippedNetShape)
    (mi now : Rat) (sOk : Bool) :
    ∀ m ∈ (Client.show c doUi mi now sOk).sent, m.isFrame = true := by
  unfold Client.show
  by_cases hc : c.tcp_endpoint = false
  · rw [if_pos hc]
    simp
  · rw [if_neg hc]
    rcases hin : c.input with - | i0 <;> dsimp only
    · rcases hlu : c.last_update with - | t <;> dsimp only
      · unfold Client.showRender
        rw [showFinish_sent]
        exact showStep_sent_frames _ _ _ _ _
      · by_cases hgt : mi < now - t
        · rw [if_pos hgt]
          unfold Client.showRender
          rw [showFinish_sent]
          exact showStep_sent_frames _ _ _ _ _
        · rw [if_neg hgt]
          simp
    · unfold Client.showRender
      rw [showFinish_sent]
      exact showStep_sent_frames _ _ _ _ _

lemma tickClients_sent_frames (doUi : Nat → RawInput → PlatformOutput × List ClippedNetShape)
    (mi now : Rat) (sendOk : Nat → Bool) :
    ∀ l : List (Nat × Client), ∀ m ∈ (tickClients doUi mi now sendOk l).2, m.isFrame = true := by
  intro l
  induction l with
  | nil => simp [tickClients]
  | cons p rest ih =>
    obtain ⟨a, c⟩ := p
    intro m hm
    rw [tickClients] at hm
    rcases List.mem_append.mp hm with hm1 | hm2
    · exact show_sent_frames c (doUi c.client_id) mi now (sendOk a) m hm1
    · exact ih m hm2

/-- CLAIM C9.  In every execution of Server::show — accepting connections,
polling sockets, ticking every session — every message sent to any client is
a Frame message; in particular no Fonts message is ever sent (the Fonts send
in accept_new_clients is an unimplemented TODO), so a viewer only ever works
with its own default font definitions. -/
theorem claim_C9 (s : Server) (conns : List (Nat × Rat)) (recvs : Nat → List NetIn)
    (doUi : Nat → RawInput → PlatformOutput × List ClippedNetShape) (now : Rat)
    (sendOk : Nat → Bool) :
    ∀ m ∈ (server_show s conns recvs doUi now sendOk).2, m.isFrame = true := by
  intro m hm
  unfold server_show at hm
  exact tickClients_sent_frames doUi _ now sendOk _ m hm

/-- Witness for C9: a concrete one-session server tick whose single sent
message is a Frame. -/
theorem claim_C9_witness :
    (ServerToClientMessage.frame 0 defaultPlatformOutput
        [⟨⟨⟨0, 0⟩, ⟨1, 1⟩⟩, .line_segment ⟨0, 0⟩ ⟨1, 1⟩ ⟨1, 7⟩⟩] none).isFrame = true := by
  refine claim_C9 ⟨1, [(0, ⟨0, true, 0, 0, 0, some defaultRawInput, none, none, []⟩)], 1⟩
    [] (fun _ => []) (fun _ _ => (defaultPlatformOutput,
      [⟨⟨⟨0, 0⟩, ⟨1, 1⟩⟩, .line_segment ⟨0, 0⟩ ⟨1, 1⟩ ⟨1, 7⟩⟩])) 0 (fun _ => true) _ ?_
  decide

lemma mergeInput_fields (c : Client) (raw : RawInput) :
    (c.mergeInput raw).frame_index = c.frame_index
    ∧ (c.mergeInput raw).tcp_endpoint = c.tcp_endpoint := by
  unfold Client.mergeInput
  rcases hx : c.input with - | i <;> simp

lemma tryReceive_frame_index : ∀ (ins : List NetIn) (c : Client),
    (c.tryReceive ins).frame_index = c.frame_index := by
  intro ins
  induction ins with
  | nil => intro c; rfl
  | cons e rest ih =>
    intro c
    unfold Client.tryReceive
    by_cases hc : c.tcp_endpoint
    · rw [if_pos hc]
      cases e with
      | msg m =>
        cases m with
        | input raw ct =>
          rw [ih]
          exact (mergeInput_fields c raw).1
        | goodbye => rfl
      | ioErr => rfl
    · rw [if_neg hc]

lemma showStep_emit (c1 : Client) (o : PlatformOutput) (sh : List ClippedNetShape)
    (ct : Option Rat) (sOk : Bool) :
    c1.frame_index ≤ (showStep c1 o sh ct sOk).1.frame_index
    ∧ (frame_indices (showStep c1 o sh ct sOk).2 = []
      ∨ (frame_indices (showStep c1 o sh ct sOk).2 = [c1.frame_index]
        ∧ c1.frame_index + 1 ≤ (showStep c1 o sh ct sOk).1.frame_index)) := by
  unfold showStep
  split_ifs with h1 h2
  · simp [frame_indices]
  · refine ⟨by simp, Or.inr ⟨?_, by simp⟩⟩
    simp [frame_indices]
  · refine ⟨by simp [Client.disconnect], Or.inl ?_⟩
    simp [frame_indices]

lemma showFinish_emit (s : Client × List ServerToClientMessage) (nr : Bool) (inp : RawInput) :
    (showFinish s nr inp).state.frame_index = s.1.frame_index
    ∧ (showFinish s nr inp).sent = s.2 := by
  unfold showFinish
  cases nr <;> simp

lemma showRender_emit (c : Client) (doUi : RawInput → PlatformOutput × List ClippedNetShape)
    (now : Rat) (ct : Option Rat) (i0 : RawInput) (sOk : Bool) :
    c.frame_index ≤ (Client.showRender c doUi now ct i0 sOk).state.frame_index
    ∧ (frame_indices (Client.showRender c doUi now ct i0 sOk).sent = []
      ∨ (frame_indices (Client.showRender c doUi now ct i0 sOk).sent = [c.frame_index]
        ∧ c.frame_index + 1 ≤ (Client.showRender c doUi now ct i0 sOk).state.frame_index)) := by
  unfold Client.showRender
  have hf := showFinish_emit (showStep { c with last_update := some now }
    { (doUi { i0 with time := some (now - c.start_time) }).1 with needs_repaint := false }
    (doUi { i0 with time := some (now - c.start_time) }).2 ct sOk)
    (doUi { i0 with time := some (now - c.start_time) }).1.needs_repaint
    { i0 with time := some (now - c.start_time) }
  rw [hf.1, hf.2]
  exact showStep_emit { c with last_update := some now } _ _ ct sOk

lemma show_emit (c : Client) (doUi : RawInput → PlatformOutput × List ClippedNetShape)
    (mi now : Rat) (sOk : Bool) :
    c.frame_index ≤ (Client.show c doUi mi now sOk).state.frame_index
    ∧ (frame_indices (Client.show c doUi mi now sOk).sent = []
      ∨ (frame_indices (Client.show c doUi mi now sOk).sent = [c.frame_index]
        ∧ c.frame_index + 1 ≤ (Client.show c doUi mi now sOk).state.frame_index)) := by
  unfold Client.show
  by_cases hc : c.tcp_endpoint = false
  · rw [if_pos hc]
    simp [frame_indices]
  · rw [if_neg hc]
    rcases hin : c.input with - | i0 <;> dsimp only
    · rcases hlu : c.last_update with - | t <;> dsimp only
      · exact showRender_emit { c with client_time := none, input := none } doUi now
          c.client_time defaultRawInput sOk
      · by_cases hgt : mi < now - t
        · rw [if_pos hgt]
          exact showRender_emit { c with client_time := none, input := none } doUi now
            c.client_time defaultRawInput sOk
        · rw [if_neg hgt]
          simp [frame_indices]
    · exact showRender_emit { c with client_time := none, input := none } doUi now
        c.client_time i0 sOk

lemma sessionStep_emit (mi : Rat) (c : Client) (e : SessionEvent) :
    c.frame_index ≤ (sessionStep mi c e).1.frame_index
    ∧ (frame_indices (sessionStep mi c e).2 = []
      ∨ (frame_indices (sessionStep mi c e).2 = [c.frame_index]
        ∧ c.frame_index + 1 ≤ (sessionStep mi c e).1.frame_index)) := by
  cases e with
  | tick now doUi sOk => exact show_emit c doUi mi now sOk
  | recv ins =>
    refine ⟨?_, Or.inl (by simp [sessionStep, frame_indices])⟩
    simp only [sessionStep]
    rw [tryReceive_frame_index]
  | reconnect => exact ⟨by simp [sessionStep], Or.inl (by simp [sessionStep, frame_indices])⟩

lemma sessionRun_emit (mi : Rat) : ∀ (evs : List SessionEvent) (c : Client),
    List.Chain' (fun a b => a < b) (frame_indices (sessionRun mi c evs).2)
    ∧ (∀ j ∈ frame_indices (sessionRun mi c evs).2, c.frame_index ≤ j) := by
  intro evs
  induction evs with
  | nil => intro c; simp [sessionRun, frame_indices]
  | cons e es ih =>
    intro c
    obtain ⟨hmono, hemit⟩ := sessionStep_emit mi c e
    obtain ⟨ihchain, ihlb⟩ := ih (sessionStep mi c e).1
    have hsplit : frame_indices (sessionRun mi c (e :: es)).2
        = frame_indices (sessionStep mi c e).2
          ++ frame_indices (sessionRun mi (sessionStep mi c e).1 es).2 := by
      simp [sessionRun, frame_indices]
    rcases hemit with hnil | ⟨hone, hbump⟩
    · rw [hsplit, hnil, List.nil_append]
      refine ⟨ihchain, fun j hj => le_trans hmono (ihlb j hj)⟩
    · rw [hsplit, hone, List.singleton_append]
      constructor
      · rw [List.chain'_cons']
        refine ⟨?_, ihchain⟩
        intro b hb
        have hbmem : b ∈ frame_indices (sessionRun mi (sessionStep mi c e).1 es).2 :=
          List.mem_of_mem_head? hb
        have := ihlb b hbmem
        omega
      · intro j hj
        rcases List.mem_cons.mp hj with rfl | hj'
        · exact le_refl _
        · have := ihlb j hj'
          omega

lemma lookup_accept : ∀ (l : List (Nat × Client)) (addr : Nat) (c : Client),
    (l.find? (fun p => p.1 = addr)).map Prod.snd = some c →
    ((l.map (fun p => if p.1 = addr then (p.1, { p.2 with tcp_endpoint := true }) else p)).find?
        (fun p => p.1 = addr)).map Prod.snd = some { c with tcp_endpoint := true } := by
  intro l
  induction l with
  | nil => intro addr c h; simp at h
  | cons p rest ih =>
    intro addr c h
    by_cases hp : p.1 = addr
    · rw [List.find?_cons_of_pos rest (by simp [hp])] at h
      simp only [Option.map_some'] at h
      simp only [List.map_cons, if_pos hp]
      rw [List.find?_cons_of_pos _ (by simp [hp])]
      have hpc := Option.some.inj h
      simp [hpc]
    · rw [List.find?_cons_of_neg rest (by simp [hp])] at h
      simp only [List.map_cons, if_neg hp]
      rw [List.find?_cons_of_neg _ (by simp [hp])]
      exact ih addr c h

/-- CLAIM C6.  First part: along any trace of session events — render ticks,
received input, Goodbye, read errors, disconnects and reconnects of the same
identity — the frame indices carried by the Frame messages sent on the
session are strictly increasing, hence never reused.  Second part:
disconnect clears exactly the connection handle and the last-sent snapshot,
leaving the retained egui context, the frame index counter and every other
field unchanged.  Third part: accepting a new connection from an address
already in the session table reuses that session, changing nothing but its
connection handle. -/
theorem claim_C6 :
    (∀ (mi : Rat) (c : Client) (evs : List SessionEvent),
      List.Chain' (fun a b => a < b) (frame_indices (sessionRun mi c evs).2))
    ∧ (∀ c : Client,
        c.disconnect.frame_index = c.frame_index
        ∧ c.disconnect.egui_ctx = c.egui_ctx
        ∧ c.disconnect.start_time = c.start_time
        ∧ c.disconnect.client_id = c.client_id
        ∧ c.disconnect.input = c.input
        ∧ c.disconnect.client_time = c.client_time
        ∧ c.disconnect.last_update = c.last_update
        ∧ c.disconnect.tcp_endpoint = false
        ∧ c.disconnect.last_visuals = [])
    ∧ (∀ (s : Server) (addr : Nat) (now : Rat) (c : Client),
        lookupClient s addr = some c →
        lookupClient (server_accept_one s addr now) addr
          = some { c with tcp_endpoint := true }) := by
  refine ⟨?_, ?_, ?_⟩
  · intro mi c evs
    exact (sessionRun_emit mi evs c).1
  · intro c
    exact ⟨rfl, rfl, rfl, rfl, rfl, rfl, rfl, rfl, rfl⟩
  · intro s addr now c h
    unfold lookupClient at h
    have hsome : (s.clients.find? (fun p => p.1 = addr)).isSome := by
      rcases hf : s.clients.find? (fun p => p.1 = addr) with - | v
      · rw [hf] at h
        exact absurd h (by simp)
      · simp [hf]
    unfold server_accept_one lookupClient
    rw [if_pos hsome]
    exact lookup_accept s.clients addr c h

/-- Witness for C6's reconnect part at a concrete one-session table. -/
theorem claim_C6_witness :
    lookupClient (server_accept_one
        ⟨1, [(3, ⟨0, false, 0, 5, 0, none, none, none, []⟩)], 1⟩ 3 9) 3
      = some { (⟨0, false, 0, 5, 0, none, none, none, []⟩ : Client) with tcp_endpoint := true } :=
  claim_C6.2.2 ⟨1, [(3, ⟨0, false, 0, 5, 0, none, none, none, []⟩)], 1⟩ 3 9
    ⟨0, false, 0, 5, 0, none, none, none, []⟩ (by decide)

/-- A session without a connection does nothing on a tick. -/
lemma show_disconnected (c : Client) (doUi : RawInput → PlatformOutput × List ClippedNetShape)
    (mi now : Rat) (sOk : Bool) (h : c.tcp_endpoint = false) :
    Client.show c doUi mi now sOk = ⟨c, [], none⟩ := by
  unfold Client.show
  rw [if_pos h]

/-- CLAIM C7, corrected.  For a connected session with no pending input, the
tick renders if and only if there was no previous update or the time since
the last update — the last render, recorded in last_update whether or not a
Frame was actually sent — strictly exceeds the minimum update interval;
otherwise the tick skips the session: nothing is sent, nothing is rendered,
and the state is untouched except that the pending client time slot is
cleared. -/
theorem claim_C7 (c : Client) (doUi : RawInput → PlatformOutput × List ClippedNetShape)
    (mi now : Rat) (sOk : Bool)
    (hconn : c.tcp_endpoint = true) (hinp : c.input = none) :
    ((Client.show c doUi mi now sOk).ranInput.isSome
      ↔ (∀ t ∈ c.last_update, mi < now - t))
    ∧ ((Client.show c doUi mi now sOk).ranInput = none →
        (Client.show c doUi mi now sOk).sent = []
        ∧ (Client.show c doUi mi now sOk).state
            = { c with client_time := none, input := none }) := by
  unfold Client.show
  rw [if_neg (by simp [hconn]), hinp]
  dsimp only
  rcases hlu : c.last_update with - | t <;> dsimp only
  · constructor
    · simp [showRender_ranInput]
    · intro h
      rw [showRender_ranInput] at h
      exact absurd h (by simp)
  · by_cases hgt : mi < now - t
    · rw [if_pos hgt]
      constructor
      · simp [showRender_ranInput, hgt]
      · intro h
        rw [showRender_ranInput] at h
        exact absurd h (by simp)
    · rw [if_neg hgt]
      constructor
      · simp [hgt]
      · intro h
        exact ⟨rfl, rfl⟩

/-- Witness for C7 at a concrete connected idle session whose last update
was at time 0, ticked at time 2 with interval 1. -/
theorem claim_C7_witness :
    ((Client.show ⟨0, true, 0, 0, 0, none, none, some 0, []⟩
        (fun _ => (defaultPlatformOutput, [])) 1 2 true).ranInput.isSome
      ↔ (∀ t ∈ (⟨0, true, 0, 0, 0, none, none, some 0, []⟩ : Client).last_update,
          (1 : Rat) < 2 - t))
    ∧ ((Client.show ⟨0, true, 0, 0, 0, none, none, some 0, []⟩
        (fun _ => (defaultPlatformOutput, [])) 1 2 true).ranInput = none →
        (Client.show ⟨0, true, 0, 0, 0, none, none, some 0, []⟩
          (fun _ => (defaultPlatformOutput, [])) 1 2 true).sent = []
        ∧ (Client.show ⟨0, true, 0, 0, 0, none, none, some 0, []⟩
            (fun _ => (defaultPlatformOutput, [])) 1 2 true).state
          = { (⟨0, true, 0, 0, 0, none, none, some 0, []⟩ : Client) with
              client_time := none, input := none }) :=
  claim_C7 ⟨0, true, 0, 0, 0, none, none, some 0, []⟩
    (fun _ => (defaultPlatformOutput, [])) 1 2 true rfl rfl

/-- A concrete wire shape used by several concrete executions below. -/
def sampleShape : ClippedNetShape :=
  ⟨⟨⟨0, 0⟩, ⟨1, 1⟩⟩, .line_segment ⟨0, 0⟩ ⟨1, 1⟩ ⟨1, 7⟩⟩

/-- A connected session with one pending (empty) input and an empty snapshot. -/
def c7_client0 : Client := ⟨0, true, 0, 0, 0, some defaultRawInput, none, none, []⟩

/-- A UI oracle that always draws one shape with no side effects. -/
def c7_doUi : RawInput → PlatformOutput × List ClippedNetShape :=
  fun _ => (defaultPlatformOutput, [sampleShape])

/-- Tick at time 0 (renders and sends the only Frame of this trace). -/
def c7_r1 : ShowResult := Client.show c7_client0 c7_doUi 1 0 true

/-- New client input arrives. -/
def c7_c1 : Client := c7_r1.state.tryReceive [.msg (.input defaultRawInput 0)]

/-- Tick at time 1/2: renders (input pending) but the unchanged visuals
suppress the send; last_update moves to 1/2 anyway. -/
def c7_r2 : ShowResult := Client.show c7_c1 c7_doUi 1 (1/2) true

/-- Tick at time 6/5 with no pending input. -/
def c7_r3 : ShowResult := Client.show c7_r2.state c7_doUi 1 (6/5) true

/-- Counterexample for C7 as stated.  The only Frame of the trace is sent at
time 0; at time 6/5 the time since that last sent frame is 6/5 - 0 > 1, the
configured interval, so the claim says the tick proceeds — but the code
gates on last_update, which the suppressed render at time 1/2 refreshed, so
the session is skipped: no render (ranInput = none) and nothing sent. -/
theorem claim_C7_counterexample :
    c7_r1.sent.length = 1
    ∧ c7_r2.sent = []
    ∧ (1 : Rat) < 6/5 - 0
    ∧ c7_r3.ranInput = none
    ∧ c7_r3.sent = [] := by
  have h1 : c7_r1 = ⟨⟨0, true, 0, 1, 0, none, none, some 0, [sampleShape]⟩,
      [.frame 0 defaultPlatformOutput [sampleShape] none], some ⟨some 0, []⟩⟩ := by
    norm_num [c7_r1, c7_client0, c7_doUi, Client.show, Client.showRender, showStep,
      showFinish, defaultPlatformOutput, defaultRawInput]
  have h2 : c7_c1 = ⟨0, true, 0, 1, 0, some defaultRawInput, some 0, some 0, [sampleShape]⟩ := by
    rw [c7_c1, h1]
    norm_num [Client.tryReceive, Client.mergeInput]
  have h3 : c7_r2 = ⟨⟨0, true, 0, 1, 0, none, none, some (1/2), [sampleShape]⟩, [],
      some ⟨some (1/2), []⟩⟩ := by
    rw [c7_r2, h2]
    norm_num [c7_doUi, Client.show, Client.showRender, showStep, showFinish,
      defaultPlatformOutput, defaultRawInput]
  have h4 : c7_r3 = ⟨⟨0, true, 0, 1, 0, none, none, some (1/2), [sampleShape]⟩, [], none⟩ := by
    rw [c7_r3, h3]
    norm_num [c7_doUi, Client.show, Client.showRender, showStep, showFinish,
      defaultPlatformOutput, defaultRawInput]
  rw [h1, h3, h4]
  norm_num

/-- A tick that renders is exactly a showRender call on the session with its
pending client time and input taken. -/
lemma show_render_eq (c : Client) (doUi : RawInput → PlatformOutput × List ClippedNetShape)
    (mi now : Rat) (sOk : Bool)
    (h : (Client.show c doUi mi now sOk).ranInput.isSome = true) :
    Client.show c doUi mi now sOk
      = Client.showRender { c with client_time := none, input := none } doUi now
          c.client_time (c.input.getD defaultRawInput) sOk := by
  unfold Client.show at h ⊢
  by_cases hc : c.tcp_endpoint = false
  · rw [if_pos hc] at h
    simp at h
  · rw [if_neg hc] at h ⊢
    rcases hin : c.input with - | i0
    · rw [hin] at h
      rcases hlu : c.last_update with - | t
      · rfl
      · rw [hlu] at h
        dsimp only at h ⊢
        by_cases hgt : mi < now - t
        · rw [if_pos hgt]
          rfl
        · rw [if_neg hgt] at h
          simp at h
    · rfl

lemma showFinish_fields (s : Client × List ServerToClientMessage) (nr : Bool) (inp : RawInput) :
    (showFinish s nr inp).state.frame_index = s.1.frame_index
    ∧ (showFinish s nr inp).state.last_visuals = s.1.last_visuals
    ∧ (showFinish s nr inp).state.tcp_endpoint = s.1.tcp_endpoint
    ∧ (showFinish s nr inp).sent = s.2 := by
  unfold showFinish
  cases nr <;> simp

/-- A render whose cleared output is the default and whose projected shapes
equal the last-sent snapshot sends nothing and leaves the frame index, the
snapshot and the connection unchanged. -/
lemma showRender_suppress (c1 : Client) (doUi : RawInput → PlatformOutput × List ClippedNetShape)
    (now : Rat) (ct : Option Rat) (i0 : RawInput) (sOk : Bool)
    (o : PlatformOutput) (sh : List ClippedNetShape)
    (hdo : doUi { i0 with time := some (now - c1.start_time) } = (o, sh))
    (hns : { o with needs_repaint := false } = defaultPlatformOutput)
    (hsh : sh = c1.last_visuals) :
    (Client.showRender c1 doUi now ct i0 sOk).sent = []
    ∧ (Client.showRender c1 doUi now ct i0 sOk).state.frame_index = c1.frame_index
    ∧ (Client.showRender c1 doUi now ct i0 sOk).state.last_visuals = c1.last_visuals
    ∧ (Client.showRender c1 doUi now ct i0 sOk).state.tcp_endpoint = c1.tcp_endpoint := by
  unfold Client.showRender
  rw [hdo]
  dsimp only
  rw [hns]
  have hstep : showStep { c1 with last_update := some now } defaultPlatformOutput sh ct sOk
      = ({ c1 with last_update := some now }, []) := by
    unfold showStep
    rw [if_pos ⟨rfl, hsh⟩]
  rw [hstep]
  have hf := showFinish_fields ({ c1 with last_update := some now }, []) o.needs_repaint
    { i0 with time := some (now - c1.start_time) }
  exact ⟨hf.2.2.2, hf.1, hf.2.1, hf.2.2.1⟩

/-- A render whose cleared output is the default but whose shapes differ from
the snapshot sends exactly one Frame (when the send succeeds) carrying the
current frame index, bumps the counter and stores the snapshot. -/
lemma showRender_send (c1 : Client) (doUi : RawInput → PlatformOutput × List ClippedNetShape)
    (now : Rat) (ct : Option Rat) (i0 : RawInput)
    (o : PlatformOutput) (sh : List ClippedNetShape)
    (hdo : doUi { i0 with time := some (now - c1.start_time) } = (o, sh))
    (hns : { o with needs_repaint := false } = defaultPlatformOutput)
    (hsh : sh ≠ c1.last_visuals) :
    (Client.showRender c1 doUi now ct i0 true).sent
      = [ServerToClientMessage.frame c1.frame_index defaultPlatformOutput sh ct]
    ∧ (Client.showRender c1 doUi now ct i0 true).state.frame_index = c1.frame_index + 1
    ∧ (Client.showRender c1 doUi now ct i0 true).state.last_visuals = sh
    ∧ (Client.showRender c1 doUi now ct i0 true).state.tcp_endpoint = c1.tcp_endpoint := by
  unfold Client.showRender
  rw [hdo]
  dsimp only
  rw [hns]
  have hstep : showStep { c1 with last_update := some now } defaultPlatformOutput sh ct true
      = ({ c1 with
            last_update := some now,
            frame_index := c1.frame_index + 1,
            last_visuals := sh },
        [ServerToClientMessage.frame c1.frame_index defaultPlatformOutput sh ct]) := by
    unfold showStep
    rw [if_neg (fun hcontra => hsh hcontra.2), if_pos rfl]
  rw [hstep]
  have hf := showFinish_fields ({ c1 with
      last_update := some now,
      frame_index := c1.frame_index + 1,
      last_visuals := sh },
    [ServerToClientMessage.frame c1.frame_index defaultPlatformOutput sh ct])
    o.needs_repaint { i0 with time := some (now - c1.start_time) }
  exact ⟨hf.2.2.2, hf.1, hf.2.1, hf.2.2.1⟩

/-- A render that would send but whose send fails disconnects the session. -/
lemma showRender_send_fail (c1 : Client) (doUi : RawInput → PlatformOutput × List ClippedNetShape)
    (now : Rat) (ct : Option Rat) (i0 : RawInput)
    (o : PlatformOutput) (sh : List ClippedNetShape)
    (hdo : doUi { i0 with time := some (now - c1.start_time) } = (o, sh))
    (hns : { o with needs_repaint := false } = defaultPlatformOutput)
    (hsh : sh ≠ c1.last_visuals) :
    (Client.showRender c1 doUi now ct i0 false).sent = []
    ∧ (Client.showRender c1 doUi now ct i0 false).state.tcp_endpoint = false := by
  unfold Client.showRender
  rw [hdo]
  dsimp only
  rw [hns]
  have hstep : showStep { c1 with last_update := some now } defaultPlatformOutput sh ct false
      = (({ c1 with
            last_update := some now,
            frame_index := c1.frame_index + 1,
            last_visuals := sh }).disconnect, []) := by
    unfold showStep
    rw [if_neg (fun hcontra => hsh hcontra.2), if_neg (by simp)]
  rw [hstep]
  have hf := showFinish_fields (({ c1 with
      last_update := some now,
      frame_index := c1.frame_index + 1,
      last_visuals := sh }).disconnect, [])
    o.needs_repaint { i0 with time := some (now - c1.start_time) }
  exact ⟨hf.2.2.2, hf.2.2.1⟩

/-- CLAIM C5, corrected.  Take two consecutive ticks that both render, both
with outputs that have no side effects (equal to the default once
needs_repaint is cleared), and both producing wire shapes structurally equal
to the last-sent snapshot as of the end of the first tick.  Then the second
tick sends nothing and leaves the frame index and the snapshot unchanged,
and at most one Frame is sent across both ticks — exactly one precisely
when the first tick's shapes differed from the snapshot previously sent
(zero when the first tick was itself already suppressed). -/
theorem claim_C5 (c : Client) (doUi1 doUi2 : RawInput → PlatformOutput × List ClippedNetShape)
    (mi now1 now2 : Rat) (sOk1 sOk2 : Bool) (i1 i2 : RawInput)
    (o1 o2 : PlatformOutput) (s1 s2 : List ClippedNetShape)
    (h1 : (Client.show c doUi1 mi now1 sOk1).ranInput = some i1)
    (hdo1 : doUi1 i1 = (o1, s1))
    (hns1 : { o1 with needs_repaint := false } = defaultPlatformOutput)
    (hs1 : s1 = (Client.show c doUi1 mi now1 sOk1).state.last_visuals)
    (h2 : (Client.show (Client.show c doUi1 mi now1 sOk1).state doUi2 mi now2 sOk2).ranInput
        = some i2)
    (hdo2 : doUi2 i2 = (o2, s2))
    (hns2 : { o2 with needs_repaint := false } = defaultPlatformOutput)
    (hs2 : s2 = (Client.show c doUi1 mi now1 sOk1).state.last_visuals) :
    (Client.show (Client.show c doUi1 mi now1 sOk1).state doUi2 mi now2 sOk2).sent = []
    ∧ (Client.show (Client.show c doUi1 mi now1 sOk1).state doUi2 mi now2 sOk2).state.frame_index
        = (Client.show c doUi1 mi now1 sOk1).state.frame_index
    ∧ (Client.show (Client.show c doUi1 mi now1 sOk1).state doUi2 mi now2 sOk2).state.last_visuals
        = (Client.show c doUi1 mi now1 sOk1).state.last_visuals
    ∧ ((Client.show c doUi1 mi now1 sOk1).sent
        ++ (Client.show (Client.show c doUi1 mi now1 sOk1).state doUi2 mi now2 sOk2).sent).length
        ≤ 1
    ∧ (((Client.show c doUi1 mi now1 sOk1).sent
        ++ (Client.show (Client.show c doUi1 mi now1 sOk1).state doUi2 mi now2 sOk2).sent).length
        = 1 ↔ s1 ≠ c.last_visuals) := by
  have hr1eq := show_render_eq c doUi1 mi now1 sOk1 (by rw [h1]; rfl)
  have hi1 : i1 = { (c.input.getD defaultRawInput) with time := some (now1 - c.start_time) } := by
    rw [hr1eq, showRender_ranInput] at h1
    exact (Option.some.inj h1).symm
  have hdo1' : doUi1 { (c.input.getD defaultRawInput) with
      time := some (now1 - c.start_time) } = (o1, s1) := by
    rw [← hi1]
    exact hdo1
  have hr2eq := show_render_eq (Client.show c doUi1 mi now1 sOk1).state doUi2 mi now2 sOk2
    (by rw [h2]; rfl)
  have hi2 : i2 = { ((Client.show c doUi1 mi now1 sOk1).state.input.getD defaultRawInput) with
      time := some (now2 - (Client.show c doUi1 mi now1 sOk1).state.start_time) } := by
    rw [hr2eq, showRender_ranInput] at h2
    exact (Option.some.inj h2).symm
  have hdo2' : doUi2 { ((Client.show c doUi1 mi now1 sOk1).state.input.getD defaultRawInput) with
      time := some (now2 - (Client.show c doUi1 mi now1 sOk1).state.start_time) } = (o2, s2) := by
    rw [← hi2]
    exact hdo2
  have hsup2 := showRender_suppress
    { (Client.show c doUi1 mi now1 sOk1).state with client_time := none, input := none }
    doUi2 now2 (Client.show c doUi1 mi now1 sOk1).state.client_time
    ((Client.show c doUi1 mi now1 sOk1).state.input.getD defaultRawInput) sOk2 o2 s2
    hdo2' hns2 hs2
  have hsent2 : (Client.show (Client.show c doUi1 mi now1 sOk1).state doUi2 mi now2 sOk2).sent
      = [] := by
    rw [hr2eq]
    exact hsup2.1
  have hfi2 : (Client.show (Client.show c doUi1 mi now1 sOk1).state
        doUi2 mi now2 sOk2).state.frame_index
      = (Client.show c doUi1 mi now1 sOk1).state.frame_index := by
    rw [hr2eq]
    exact hsup2.2.1
  have hlv2 : (Client.show (Client.show c doUi1 mi now1 sOk1).state
        doUi2 mi now2 sOk2).state.last_visuals
      = (Client.show c doUi1 mi now1 sOk1).state.last_visuals := by
    rw [hr2eq]
    exact hsup2.2.2.1
  have hlen : ((Client.show c doUi1 mi now1 sOk1).sent
        ++ (Client.show (Client.show c doUi1 mi now1 sOk1).state doUi2 mi now2 sOk2).sent).length
      = if s1 = c.last_visuals then 0 else 1 := by
    by_cases hsup : s1 = c.last_visuals
    · have hsup1 := showRender_suppress { c with client_time := none, input := none }
        doUi1 now1 c.client_time (c.input.getD defaultRawInput) sOk1 o1 s1 hdo1' hns1 hsup
      have hsent1 : (Client.show c doUi1 mi now1 sOk1).sent = [] := by
        rw [hr1eq]
        exact hsup1.1
      rw [hsent1, hsent2, if_pos hsup]
      simp
    · rcases Bool.eq_false_or_eq_true sOk1 with hok | hok
      · have hsend1 := showRender_send { c with client_time := none, input := none }
          doUi1 now1 c.client_time (c.input.getD defaultRawInput) o1 s1 hdo1' hns1 hsup
        have hsent1 : (Client.show c doUi1 mi now1 sOk1).sent
            = [ServerToClientMessage.frame c.frame_index defaultPlatformOutput s1
                c.client_time] := by
          rw [hr1eq, hok]
          exact hsend1.1
        rw [hsent1, hsent2, if_neg hsup]
        simp
      · exfalso
        have hfail1 := showRender_send_fail { c with client_time := none, input := none }
          doUi1 now1 c.client_time (c.input.getD defaultRawInput) o1 s1 hdo1' hns1 hsup
        have htcp : (Client.show c doUi1 mi now1 sOk1).state.tcp_endpoint = false := by
          rw [hr1eq, hok]
          exact hfail1.2
        rw [show_disconnected _ doUi2 mi now2 sOk2 htcp] at h2
        exact absurd h2 (by simp)
  refine ⟨hsent2, hfi2, hlv2, ?_, ?_⟩
  · rw [hlen]
    by_cases hsup : s1 = c.last_visuals
    · rw [if_pos hsup]
      omega
    · rw [if_neg hsup]
  · rw [hlen]
    by_cases hsup : s1 = c.last_visuals
    · rw [if_pos hsup]
      simp [hsup]
    · rw [if_neg hsup]
      simp [hsup]

/-- A connected session with one pending empty input and an empty snapshot. -/
def c5w_client : Client := ⟨0, true, 0, 0, 0, some defaultRawInput, none, none, []⟩

/-- First-tick oracle: one shape, no side effects, immediate re-tick
requested (so the second tick renders through the synthesized input). -/
def c5w_doUi1 : RawInput → PlatformOutput × List ClippedNetShape :=
  fun _ => (⟨true, []⟩, [sampleShape])

/-- Second-tick oracle: the same shape, no side effects. -/
def c5w_doUi2 : RawInput → PlatformOutput × List ClippedNetShape :=
  fun _ => (defaultPlatformOutput, [sampleShape])

/-- Witness for C5: a first tick that sends one Frame followed by an
identical suppressed second tick — one Frame across both ticks. -/
theorem claim_C5_witness :
    (Client.show (Client.show c5w_client c5w_doUi1 1 0 true).state c5w_doUi2 1 2 true).sent = []
    ∧ (Client.show (Client.show c5w_client c5w_doUi1 1 0 true).state
          c5w_doUi2 1 2 true).state.frame_index
        = (Client.show c5w_client c5w_doUi1 1 0 true).state.frame_index
    ∧ (Client.show (Client.show c5w_client c5w_doUi1 1 0 true).state
          c5w_doUi2 1 2 true).state.last_visuals
        = (Client.show c5w_client c5w_doUi1 1 0 true).state.last_visuals
    ∧ ((Client.show c5w_client c5w_doUi1 1 0 true).sent
        ++ (Client.show (Client.show c5w_client c5w_doUi1 1 0 true).state
            c5w_doUi2 1 2 true).sent).length ≤ 1
    ∧ (((Client.show c5w_client c5w_doUi1 1 0 true).sent
        ++ (Client.show (Client.show c5w_client c5w_doUi1 1 0 true).state
            c5w_doUi2 1 2 true).sent).length = 1
      ↔ [sampleShape] ≠ c5w_client.last_visuals) :=
  claim_C5 c5w_client c5w_doUi1 c5w_doUi2 1 0 2 true true
    ⟨some ((0 : Rat) - 0), []⟩ ⟨some ((2 : Rat) - 0), []⟩ ⟨true, []⟩ defaultPlatformOutput
    [sampleShape] [sampleShape] rfl rfl rfl (by decide) rfl rfl rfl (by decide)

/-- A connected session with one pending empty input, empty snapshot. -/
def c5_client0 : Client := ⟨0, true, 0, 0, 0, some defaultRawInput, none, none, []⟩

/-- A UI oracle that draws nothing and has no side effects. -/
def c5_doUi : RawInput → PlatformOutput × List ClippedNetShape :=
  fun _ => (defaultPlatformOutput, [])

/-- First tick, at time 0. -/
def c5_r1 : ShowResult := Client.show c5_client0 c5_doUi 1 0 true

/-- Second tick, at time 2 (the heartbeat interval 1 has elapsed). -/
def c5_r2 : ShowResult := Client.show c5_r1.state c5_doUi 1 2 true

/-- Counterexample for C5 as stated.  Both consecutive ticks render, both
outputs have no side effects, and both ticks' projected shapes (the empty
list) are structurally equal to the last-sent snapshot as of the first tick
— yet zero Frame messages are sent across the two ticks, not exactly one:
the first tick's shapes already matched the previously sent snapshot, so
both ticks suppress. -/
theorem claim_C5_counterexample :
    c5_r1.ranInput.isSome = true
    ∧ c5_r2.ranInput.isSome = true
    ∧ c5_r1.state.last_visuals = []
    ∧ c5_r2.state.last_visuals = []
    ∧ c5_r1.sent ++ c5_r2.sent = []
    ∧ (c5_r1.sent ++ c5_r2.sent).length ≠ 1 := by
  have h1 : c5_r1 = ⟨⟨0, true, 0, 0, 0, none, none, some 0, []⟩, [], some ⟨some 0, []⟩⟩ := by
    norm_num [c5_r1, c5_client0, c5_doUi, Client.show, Client.showRender, showStep,
      showFinish, defaultPlatformOutput, defaultRawInput]
  have h2 : c5_r2 = ⟨⟨0, true, 0, 0, 0, none, none, some 2, []⟩, [], some ⟨some 2, []⟩⟩ := by
    rw [c5_r2, h1]
    norm_num [c5_doUi, Client.show, Client.showRender, showStep, showFinish,
      defaultPlatformOutput, defaultRawInput]
  rw [h1, h2]
  norm_num

end Eterm
